import Mathlib

/-!
# KPAC::ProxyScout: proxy auto-configuration resolution

A shallow embedding of `src/kpac/proxyscout.cpp`.

* `QString` is a list of characters, `QStringList` a list of those.
* The member variables of `ProxyScout` form the record `ProxyScout`; every
  member function takes the record and returns an `Outcome`: the C++ return
  value, the record afterwards and the outbound calls it made, in order.
* `std::time(nullptr)` is the argument `now`; `std::time_t` values are
  integers (seconds since the epoch).
* Everything the file calls but does not define (QUrl, KProtocolInfo,
  KProtocolManager, the Script engine) is a field of `Env`.
* The build is the one with HAVE_KF5NOTIFICATIONS defined.
-/

namespace KPAC

/-! ## QString -/

abbrev QString := List Char

abbrev QStringList := List QString

/-- QChar::isSpace: U+0020, the controls U+0009..U+000D and U+0085, U+00A0 and
the characters of the Unicode separator categories Zs, Zl and Zp. -/
def isSpace (c : Char) : Bool :=
  c.toNat == 32 || (9 ≤ c.toNat && c.toNat ≤ 13) || c.toNat == 133 || c.toNat == 160
    || c.toNat == 5760 || (8192 ≤ c.toNat && c.toNat ≤ 8202) || c.toNat == 8232
    || c.toNat == 8233 || c.toNat == 8239 || c.toNat == 8287 || c.toNat == 12288

/-- QString::trimmed: whitespace removed from both ends. -/
def trimmed (s : QString) : QString :=
  (s.dropWhile isSpace).rdropWhile isSpace

/-- QString::split(sep, QString::KeepEmptyParts): the pieces between the
separators, empty ones included. -/
def splitAll (sep : Char) : QString → QStringList
  | [] => [[]]
  | c :: cs =>
    if c = sep then [] :: splitAll sep cs
    else (splitAll sep cs).modifyHead (fun p => c :: p)

/-- QString::split(sep, QString::SkipEmptyParts). -/
def split (sep : Char) (s : QString) : QStringList :=
  (splitAll sep s).filter (fun p => !p.isEmpty)

/-- QString::indexOf(QChar): the position of the first occurrence; `none`
stands for the -1 of Qt. -/
def indexOf (c : Char) : QString → Option Nat
  | [] => none
  | x :: xs => if x = c then some 0 else (indexOf c xs).map (fun i => i + 1)

/-- QString::left(n). -/
def left (n : Nat) (s : QString) : QString := s.take n

/-- QString::mid(n). -/
def mid (n : Nat) (s : QString) : QString := s.drop n

/-- QStringList::first(), which Qt defines on a non-empty list only; the
empty string stands for the undefined case. -/
def first (l : QStringList) : QString := l.headD []

/-- Case folding of a QChar as far as it can decide equality with an ASCII
literal: A..Z fold to a..z, and U+017F and U+212A fold to s and k. -/
def foldCase (c : Char) : Char :=
  if 65 ≤ c.toNat ∧ c.toNat ≤ 90 then Char.ofNat (c.toNat + 32)
  else if c.toNat = 383 then 's'
  else if c.toNat = 8490 then 'k'
  else c

/-- The test `a.compare(b, Qt::CaseInsensitive) == 0`. -/
def equalsNoCase (a b : QString) : Bool :=
  a.map foldCase == b.map foldCase

/-! ## Types of proxyscout.cpp -/

/-- The enum ProxyType (lines 52-57). -/
inductive ProxyType
  | Unknown
  | Proxy
  | Socks
  | Direct
  deriving DecidableEq, Repr

/-- KProtocolManager::ProxyType, the configured proxy mode. -/
inductive KProxyType
  | NoProxy
  | ManualProxy
  | PACProxy
  | WPADProxy
  | EnvVarProxy
  deriving DecidableEq, Repr

/-- A QDBusMessage is used as a reply handle only. -/
abbrev QDBusMessage := Nat

/-- The two payloads a reply is created with: a QString or a QStringList. -/
inductive QVariant
  | string (s : QString)
  | stringList (l : QStringList)
  deriving DecidableEq, Repr

/-- ProxyScout::QueuedRequest (lines 77-80). -/
structure QueuedRequest where
  transaction : QDBusMessage
  url : QString
  sendAll : Bool
  deriving DecidableEq, Repr

/-- The loaded Script object, identified by the source text it was
constructed from. -/
structure Script where
  code : QString
  deriving DecidableEq, Repr

/-- Which class the object behind m_downloader was created as. -/
inductive DownloaderKind
  | Discovery
  | Downloader
  deriving DecidableEq, Repr

/-- What proxyscout.cpp reads from the object behind m_downloader:
scriptUrl(), script() and error(). -/
structure Downloader where
  kind : DownloaderKind
  scriptUrl : QString
  script : QString
  error : QString
  deriving DecidableEq, Repr

/-- QMap<QString, qint64> m_blackList. -/
abbrev BlackList := QString → Option Int

/-- The member variables of ProxyScout. m_watcher holds the watched paths. -/
structure ProxyScout where
  m_downloader : Option Downloader
  m_script : Option Script
  m_requestQueue : List QueuedRequest
  m_blackList : BlackList
  m_suspendTime : Int
  m_watcher : Option (List QString)

/-- Outbound calls of the member functions. -/
inductive Effect
  | createDiscovery
  | createDownloader
  | deleteDownloader
  | download (url : QString)
  | evaluate (url : QString)
  | setDelayedReply (msg : QDBusMessage)
  | send (msg : QDBusMessage) (payload : QVariant)
  | notification (event : QString) (text : QString)
  | reparseConfiguration
  deriving DecidableEq, Repr

/-- What a member function leaves behind. -/
structure Outcome (α : Type) where
  value : α
  state : ProxyScout
  effects : List Effect

/-- The collaborators proxyscout.cpp calls into. A QUrl is carried as the
text it was constructed from. -/
structure Env where
  /-- KProtocolInfo::isKnownProtocol -/
  isKnownProtocol : QString → Bool
  /-- QUrl(text).isValid() -/
  urlIsValid : QString → Bool
  /-- QUrl(text).toString() -/
  urlToString : QString → QString
  /-- QUrl::matches(other, QUrl::StripTrailingSlash) -/
  urlMatches : QString → QString → Bool
  /-- QUrl::isLocalFile -/
  isLocalFile : QString → Bool
  /-- QUrl::path -/
  urlPath : QString → QString
  /-- QUrl::fromLocalFile -/
  fromLocalFile : QString → QString
  /-- Whether QFileSystemWatcher::addPath finds the file. -/
  fileExists : QString → Bool
  /-- KProtocolManager::proxyType -/
  proxyType : KProxyType
  /-- KProtocolManager::proxyConfigScript -/
  proxyConfigScript : QString
  /-- The message of the Script::Error the Script constructor throws, if it
  throws. -/
  scriptError : QString → Option QString
  /-- Script::evaluate: the directive string, or the message of the
  Script::Error it throws. -/
  evaluate : Script → QString → Except QString QString

/-! ## The blacklist map -/

/-- QMap::contains. -/
def BlackList.contains (bl : BlackList) (k : QString) : Bool := (bl k).isSome

/-- QMap::operator[] read on a key; a missing key reads as 0. -/
def BlackList.value (bl : BlackList) (k : QString) : Int := (bl k).getD 0

/-- QMap::remove. -/
def BlackList.remove (bl : BlackList) (k : QString) : BlackList :=
  fun x => if x = k then none else bl x

/-- The assignment `m[k] = v`. -/
def BlackList.insert (bl : BlackList) (k : QString) (v : Int) : BlackList :=
  fun x => if x = k then some v else bl x

/-- QMap::clear, and the map of a new ProxyScout. -/
def BlackList.empty : BlackList := fun _ => none

/-! ## proxyTypeFor and handleRequest -/

/-- The function proxyTypeFor (lines 59-75). -/
def proxyTypeFor (mode : QString) : ProxyType :=
  if equalsNoCase mode "PROXY".toList then ProxyType.Proxy
  else if equalsNoCase mode "DIRECT".toList then ProxyType.Direct
  else if equalsNoCase mode "SOCKS".toList || equalsNoCase mode "SOCKS5".toList then
    ProxyType.Socks
  else ProxyType.Unknown

/-- Lines 308-315 of handleRequest: mode and address of the trimmed entry
`proxy`. -/
def modeAndAddress (proxy : QString) : QString × QString :=
  match indexOf ' ' proxy with
  | none => (proxy, proxy)
  | some index => (left index proxy, trimmed (mid (index + 1) proxy))

/-- Lines 322-333 of handleRequest: the address of a Proxy or Socks entry
after it was given a scheme; `none` where the loop continues. -/
def normaliseAddress (env : Env) (ty : ProxyType) (address : QString) : Option QString :=
  if ty = ProxyType.Proxy ∨ ty = ProxyType.Socks then
    let bare : Bool :=
      match indexOf ':' address with
      | none => true
      | some index => !env.isKnownProtocol (left index address)
    if bare then
      let protocol := if ty = ProxyType.Proxy then "http://".toList else "socks://".toList
      let url := protocol ++ address
      if env.urlIsValid url then some (env.urlToString url) else none
    else some address
  else some address

/-- Lines 308-333 of handleRequest: type and address of the trimmed entry
`proxy`, `none` where the loop continues without a candidate. -/
def candidate (env : Env) (proxy : QString) : Option (ProxyType × QString) :=
  let ma := modeAndAddress proxy
  let ty := proxyTypeFor ma.1
  if ty = ProxyType.Unknown then none
  else (normaliseAddress env ty ma.2).map (fun address => (ty, address))

/-- Lines 306-333 of handleRequest: the entry is trimmed and read. -/
def classify (env : Env) (entry : QString) : Option (ProxyType × QString) :=
  candidate env (trimmed entry)

/-- Lines 335-341 of handleRequest: the blacklist test on one candidate. -/
def blackListStep (now : Int) (acc : QStringList × BlackList)
    (cand : ProxyType × QString) : QStringList × BlackList :=
  if cand.1 = ProxyType.Direct ∨ acc.2.contains cand.2 = false then
    (acc.1 ++ [cand.2], acc.2)
  else if now - acc.2.value cand.2 > 1800 then
    (acc.1 ++ [cand.2], acc.2.remove cand.2)
  else acc

/-- The body of the for loop of handleRequest (lines 305-342). -/
def handleEntry (env : Env) (now : Int) (acc : QStringList × BlackList)
    (entry : QString) : QStringList × BlackList :=
  match classify env entry with
  | none => acc
  | some cand => blackListStep now acc cand

/-- ProxyScout::handleRequest (lines 297-360), called with m_script set. -/
def handleRequest (env : Env) (now : Int) (script : Script) (s : ProxyScout)
    (url : QString) : Outcome QStringList :=
  match env.evaluate script url with
  | Except.error e =>
    { value := ["DIRECT".toList], state := s,
      effects := [Effect.evaluate url, Effect.notification "evaluation-error".toList e] }
  | Except.ok r =>
    let result := trimmed r
    let proxies := split ';' result
    let loop := proxies.foldl (handleEntry env now) ([], s.m_blackList)
    let s1 := { s with m_blackList := loop.2 }
    if !loop.1.isEmpty then
      { value := loop.1, state := s1, effects := [Effect.evaluate url] }
    else
      { value := ["DIRECT".toList], state := s1, effects := [Effect.evaluate url] }

/-! ## Starting a download -/

/-- Modelled from the spec: Downloader::download, whose class is not part of
these sources. The downloader fetches the script from `url`, which becomes
the script's own fetch URL (scriptUrl), and a new fetch starts with no
script text and no error. -/
def Downloader.download (d : Downloader) (url : QString) : Downloader :=
  { d with scriptUrl := url, script := [], error := [] }

/-- The object `new Discovery(this)` or `new Downloader(this)` creates. -/
def Downloader.create (kind : DownloaderKind) : Downloader :=
  { kind := kind, scriptUrl := [], script := [], error := [] }

/-- The body of proxyScriptFileChanged (lines 279-295) on a watcher and a
downloader that exist: the watched paths afterwards and the downloader. -/
def fileChanged (env : Env) (d : Downloader) (path : QString) :
    List QString × Downloader × List Effect :=
  let files : List QString := []
  let files := if env.fileExists path then files ++ [path] else files
  (files, d.download (env.fromLocalFile path), [Effect.download (env.fromLocalFile path)])

/-- ProxyScout::proxyScriptFileChanged (lines 279-295); `none` where it
dereferences a null m_watcher or m_downloader. -/
def proxyScriptFileChanged (env : Env) (s : ProxyScout) (path : QString) :
    Option (Outcome Unit) :=
  match s.m_watcher, s.m_downloader with
  | some _, some d =>
    let r := fileChanged env d path
    some { value := (), state := { s with m_watcher := some r.1, m_downloader := some r.2.1 },
           effects := r.2.2 }
  | _, _ => none

/-- ProxyScout::startDownload (lines 175-217). A Discovery is a Downloader
too, so the cast of line 189 succeeds on every downloader. -/
def startDownload (env : Env) (s : ProxyScout) : Outcome Bool :=
  match env.proxyType with
  | KProxyType.WPADProxy =>
    let kept : Option Downloader × List Effect :=
      match s.m_downloader with
      | some d =>
        if d.kind ≠ DownloaderKind.Discovery then (none, [Effect.deleteDownloader])
        else (some d, [])
      | none => (none, [])
    match kept.1 with
    | some d => { value := true, state := { s with m_downloader := some d }, effects := kept.2 }
    | none =>
      { value := true,
        state := { s with m_downloader := some (Downloader.create DownloaderKind.Discovery) },
        effects := kept.2 ++ [Effect.createDiscovery] }
  | KProxyType.PACProxy =>
    let made : Downloader × List Effect :=
      match s.m_downloader with
      | some d => (d, [])
      | none => (Downloader.create DownloaderKind.Downloader, [Effect.createDownloader])
    let url := env.proxyConfigScript
    if env.isLocalFile url then
      let r := fileChanged env made.1 (env.urlPath url)
      { value := true,
        state := { s with m_downloader := some r.2.1, m_watcher := some r.1 },
        effects := made.2 ++ r.2.2 }
    else
      { value := true,
        state := { s with m_downloader := some (made.1.download url), m_watcher := none },
        effects := made.2 ++ [Effect.download url] }
  | _ => { value := false, state := s, effects := [] }

/-! ## The D-Bus entry points -/

/-- Lines 103-108 and 132-137: `none` where the call is answered with DIRECT
at once, else the state the call goes on with, its suspend timestamp
cleared. -/
def suspendGate (now : Int) (s : ProxyScout) : Option ProxyScout :=
  if s.m_suspendTime ≠ 0 then
    if now - s.m_suspendTime < 300 then none
    else some { s with m_suspendTime := 0 }
  else some s

/-- Lines 111 and 140: the test
`m_downloader && url.matches(m_downloader->scriptUrl(), QUrl::StripTrailingSlash)`. -/
def isScriptUrl (env : Env) (s : ProxyScout) (url : QString) : Bool :=
  match s.m_downloader with
  | some d => env.urlMatches url d.scriptUrl
  | none => false

/-- Lines 119 and 148: the test `m_downloader || startDownload()`. -/
def downloaderOrStart (env : Env) (s : ProxyScout) : Outcome Bool :=
  match s.m_downloader with
  | some _ => { value := true, state := s, effects := [] }
  | none => startDownload env s

/-- ProxyScout::proxiesForUrl (lines 99-126). -/
def proxiesForUrl (env : Env) (now : Int) (s : ProxyScout) (checkUrl : QString)
    (msg : QDBusMessage) : Outcome QStringList :=
  let url := checkUrl
  match suspendGate now s with
  | none => { value := ["DIRECT".toList], state := s, effects := [] }
  | some s1 =>
    if isScriptUrl env s1 url then
      { value := ["DIRECT".toList], state := s1, effects := [] }
    else
      match s1.m_script with
      | some script => handleRequest env now script s1 url
      | none =>
        let started := downloaderOrStart env s1
        if started.value then
          { value := [],
            state := { started.state with
              m_requestQueue := started.state.m_requestQueue ++ [QueuedRequest.mk msg url true] },
            effects := started.effects ++ [Effect.setDelayedReply msg] }
        else
          { value := ["DIRECT".toList], state := started.state, effects := started.effects }

/-- ProxyScout::proxyForUrl (lines 128-155); the request it queues has
sendAll false, the default of the QueuedRequest constructor. -/
def proxyForUrl (env : Env) (now : Int) (s : ProxyScout) (checkUrl : QString)
    (msg : QDBusMessage) : Outcome QString :=
  let url := checkUrl
  match suspendGate now s with
  | none => { value := "DIRECT".toList, state := s, effects := [] }
  | some s1 =>
    if isScriptUrl env s1 url then
      { value := "DIRECT".toList, state := s1, effects := [] }
    else
      match s1.m_script with
      | some script =>
        let r := handleRequest env now script s1 url
        { value := first r.value, state := r.state, effects := r.effects }
      | none =>
        let started := downloaderOrStart env s1
        if started.value then
          { value := [],
            state := { started.state with
              m_requestQueue := started.state.m_requestQueue ++ [QueuedRequest.mk msg url false] },
            effects := started.effects ++ [Effect.setDelayedReply msg] }
        else
          { value := "DIRECT".toList, state := started.state, effects := started.effects }

/-- ProxyScout::blackListProxy (lines 157-160). -/
def blackListProxy (now : Int) (s : ProxyScout) (proxy : QString) : Outcome Unit :=
  { value := (), state := { s with m_blackList := s.m_blackList.insert proxy now }, effects := [] }

/-- ProxyScout::reset (lines 162-173). -/
def reset (s : ProxyScout) : Outcome Unit :=
  { value := (),
    state := { s with m_script := none, m_downloader := none, m_watcher := none,
                      m_blackList := BlackList.empty, m_suspendTime := 0 },
    effects := [Effect.reparseConfiguration] }

/-- ProxyScout::disconnectNetwork (lines 219-227); `defined` says whether
the state of the configuration is QNetworkConfiguration::Defined. -/
def disconnectNetwork (s : ProxyScout) (defined : Bool) : Outcome Unit :=
  if defined then reset s else { value := (), state := s, effects := [] }

/-! ## Completion of a download -/

/-- Lines 231-253 of downloadResult: the script is constructed or an error is
reported. The value is `success` afterwards; `none` where a null
m_downloader is dereferenced. -/
def loadScript (env : Env) (s : ProxyScout) (success : Bool) : Option (Outcome Bool) :=
  if success then
    match s.m_script with
    | some _ => some { value := true, state := s, effects := [] }
    | none =>
      match s.m_downloader with
      | none => none
      | some d =>
        match env.scriptError d.script with
        | none =>
          some { value := true, state := { s with m_script := some (Script.mk d.script) },
                 effects := [] }
        | some e =>
          some { value := false, state := s,
                 effects := [Effect.notification "script-error".toList e] }
  else
    match s.m_downloader with
    | none => none
    | some d =>
      some { value := false, state := s,
             effects := [Effect.notification "download-error".toList d.error] }

/-- The loop of lines 256-264 of downloadResult, over the requests that are
left, with the script lines 233-235 made sure of. -/
def sendResults (env : Env) (now : Int) (script : Script) :
    ProxyScout → List QueuedRequest → ProxyScout × List Effect
  | s, [] => (s, [])
  | s, it :: rest =>
    let r := handleRequest env now script s it.url
    let result : QVariant :=
      if it.sendAll then QVariant.stringList r.value else QVariant.string (first r.value)
    let tail := sendResults env now script r.state rest
    (tail.1, r.effects ++ Effect.send it.transaction result :: tail.2)

/-- The loop of lines 266-268 of downloadResult. -/
def sendDirect (queue : List QueuedRequest) : List Effect :=
  queue.map (fun it => Effect.send it.transaction (QVariant.string "DIRECT".toList))

/-- ProxyScout::downloadResult (lines 229-277); `none` where a null pointer
is dereferenced. -/
def downloadResult (env : Env) (now : Int) (s : ProxyScout) (success : Bool) :
    Option (Outcome Unit) :=
  match loadScript env s success with
  | none => none
  | some l =>
    if l.value then
      match l.state.m_script with
      | none => none
      | some script =>
        let r := sendResults env now script l.state l.state.m_requestQueue
        some { value := (), state := { r.1 with m_requestQueue := [] },
               effects := l.effects ++ r.2 }
    else
      some { value := (),
             state := { l.state with m_requestQueue := [], m_suspendTime := now },
             effects := l.effects ++ sendDirect l.state.m_requestQueue }

/-! ## What the loop of handleRequest computes -/

/-- The candidates the loop of handleRequest meets on the script result `r`,
in order: type and normalised address of every entry it does not skip. -/
def candidates (env : Env) (r : QString) : List (ProxyType × QString) :=
  (split ';' (trimmed r)).filterMap (classify env)

/-- The key has an entry that is at most 1800 seconds old. -/
def freshAt (now : Int) (bl : BlackList) (k : QString) : Bool :=
  match bl k with
  | some failedAt => decide (now - failedAt ≤ 1800)
  | none => false

/-- The key has an entry that is more than 1800 seconds old. -/
def expiredAt (now : Int) (bl : BlackList) (k : QString) : Bool :=
  match bl k with
  | some failedAt => decide (now - failedAt > 1800)
  | none => false

/-- The candidate passes the blacklist: it is DIRECT or has no fresh entry. -/
def keeps (now : Int) (bl : BlackList) (cand : ProxyType × QString) : Bool :=
  decide (cand.1 = ProxyType.Direct) || !freshAt now bl cand.2

/-- The key is the address of a PROXY or SOCKS candidate and its entry has
expired. -/
def evicted (now : Int) (bl : BlackList) (cands : List (ProxyType × QString))
    (k : QString) : Bool :=
  cands.any (fun c => decide (c.1 ≠ ProxyType.Direct) && decide (c.2 = k)) && expiredAt now bl k

/-- The send calls among the effects, in order. -/
def replies (effects : List Effect) : List (QDBusMessage × QVariant) :=
  effects.filterMap (fun e =>
    match e with
    | Effect.send msg payload => some (msg, payload)
    | _ => none)

/-- How many fetches the effects start: a Discovery starts probing when it is
created, a Downloader when download is called. -/
def fetchStarts (effects : List Effect) : Nat :=
  effects.countP (fun e =>
    match e with
    | Effect.createDiscovery => true
    | Effect.download _ => true
    | _ => false)

/-- The reply the loop of lines 256-264 sends for one request, computed on
the state `s`. -/
def replyFor (env : Env) (now : Int) (script : Script) (s : ProxyScout)
    (it : QueuedRequest) : QDBusMessage × QVariant :=
  (it.transaction,
    if it.sendAll then QVariant.stringList (handleRequest env now script s it.url).value
    else QVariant.string (first (handleRequest env now script s it.url).value))

/-- The script the loop of lines 256-264 evaluates: the one that was loaded
already, else the one constructed from the text the downloader fetched. -/
def scriptFor (s : ProxyScout) (d : Downloader) : Script :=
  match s.m_script with
  | some script => script
  | none => Script.mk d.script

/-- One call of an entry point: proxiesForUrl when `all` is set, proxyForUrl
otherwise, for `url`, with the reply handle `msg`, at the time `now`. -/
structure Call where
  all : Bool
  url : QString
  msg : QDBusMessage
  now : Int
  deriving DecidableEq, Repr

/-- The state and the effects the call leaves. -/
def resolve (env : Env) (s : ProxyScout) (c : Call) : ProxyScout × List Effect :=
  if c.all then
    ((proxiesForUrl env c.now s c.url c.msg).state, (proxiesForUrl env c.now s c.url c.msg).effects)
  else
    ((proxyForUrl env c.now s c.url c.msg).state, (proxyForUrl env c.now s c.url c.msg).effects)

/-- The calls made one after the other: the last state and all effects. -/
def resolveAll (env : Env) : ProxyScout → List Call → ProxyScout × List Effect
  | s, [] => (s, [])
  | s, c :: rest =>
    ((resolveAll env (resolve env s c).1 rest).1,
      (resolve env s c).2 ++ (resolveAll env (resolve env s c).1 rest).2)

/-- The request a call is queued as. -/
def Call.queued (c : Call) : QueuedRequest := QueuedRequest.mk c.msg c.url c.all

/-! ## Directive strings, as the specification describes them -/

/-- One directive of a script result: the bare word DIRECT, a mode with an
address, or any other text. -/
inductive Directive
  | direct
  | proxy (mode address : QString)
  | other (text : QString)
  deriving DecidableEq, Repr

/-- A segment of a script result: a directive with whitespace around it. -/
structure Segment where
  lead : QString
  body : Directive
  trail : QString
  deriving DecidableEq, Repr

/-- The text of a directive. -/
def Directive.text : Directive → QString
  | Directive.direct => "DIRECT".toList
  | Directive.proxy mode address => mode ++ ' ' :: address
  | Directive.other text => text

/-- The text of a segment. -/
def Segment.text (g : Segment) : QString := g.lead ++ g.body.text ++ g.trail

/-- A script result: the segments, separated by semicolons. -/
def resultText (segs : List Segment) : QString :=
  List.intercalate [';'] (segs.map Segment.text)

/-- The mode of a directive text: what stands before its first blank. -/
def modeOf (text : QString) : QString := (trimmed text).takeWhile (fun c => c ≠ ' ')

/-- Whether `address` starts with a known protocol and a colon. -/
def knownProtocolAt (env : Env) (address : QString) : Bool :=
  (List.range address.length).any
    (fun i => address[i]? == some ':' && env.isKnownProtocol (address.take i))

/-- The characters that are the character `w` of a word in some letter case:
`w`, its lower-case and its upper-case form, and for s and k also the long s
U+017F, whose upper-case form is S, and the Kelvin sign U+212A, whose
lower-case form is k. -/
def caseVariants (w : Char) : List Char :=
  [w, w.toLower, w.toUpper]
    ++ (if w.toLower = 's' then [Char.ofNat 383] else [])
    ++ (if w.toLower = 'k' then [Char.ofNat 8490] else [])

/-- The text `mode` is the word `word` in some letter case: it has the
length of the word and each of its characters is a case variant of the
character of the word at its place. -/
def inAnyCase : QString → QString → Bool
  | [], [] => true
  | w :: ws, c :: cs => decide (c ∈ caseVariants w) && inAnyCase ws cs
  | _, _ => false

/-- The case variants of `w` are all the characters QChar folding sends where
it sends `w`: every variant folds like `w`, and whatever can fold to the
folded `w` (that character, the capital 32 places below a small letter, the
long s for s and the Kelvin sign for k) is a variant. -/
def variantsComplete (w : Char) : Bool :=
  (caseVariants w).all (fun v => foldCase v == foldCase w)
    && decide (foldCase w ∈ caseVariants w)
    && (!decide (97 ≤ (foldCase w).toNat ∧ (foldCase w).toNat ≤ 122)
        || decide (Char.ofNat ((foldCase w).toNat - 32) ∈ caseVariants w))
    && (!decide (foldCase w = 's') || decide (Char.ofNat 383 ∈ caseVariants w))
    && (!decide (foldCase w = 'k') || decide (Char.ofNat 8490 ∈ caseVariants w))

/-- The scheme the specification puts before the address of a mode. -/
def schemeOf (mode : QString) : QString :=
  if inAnyCase "PROXY".toList mode then "http://".toList else "socks://".toList

/-- The directives the specification's parser reads: DIRECT; PROXY, SOCKS or
SOCKS5 in any letter case with a non-empty address that has no whitespace
around it, no semicolon, no known protocol in front and that is a valid URL
behind its scheme; or a text without semicolon whose mode is none of the
four words in any letter case. -/
def Directive.WellFormed (env : Env) : Directive → Prop
  | Directive.direct => True
  | Directive.proxy mode address =>
    (inAnyCase "PROXY".toList mode = true ∨ inAnyCase "SOCKS".toList mode = true
        ∨ inAnyCase "SOCKS5".toList mode = true)
      ∧ address ≠ [] ∧ trimmed address = address ∧ ';' ∉ address
      ∧ knownProtocolAt env address = false
      ∧ env.urlIsValid (schemeOf mode ++ address) = true
  | Directive.other text =>
    ';' ∉ text ∧ inAnyCase "PROXY".toList (modeOf text) = false
      ∧ inAnyCase "DIRECT".toList (modeOf text) = false
      ∧ inAnyCase "SOCKS".toList (modeOf text) = false
      ∧ inAnyCase "SOCKS5".toList (modeOf text) = false

/-- A well-formed directive between two runs of whitespace. -/
def Segment.WellFormed (env : Env) (g : Segment) : Prop :=
  (∀ c ∈ g.lead, isSpace c = true) ∧ (∀ c ∈ g.trail, isSpace c = true) ∧ g.body.WellFormed env

/-- The element of the reply the specification gives for a directive. -/
def Directive.expected (env : Env) : Directive → Option QString
  | Directive.direct => some "DIRECT".toList
  | Directive.proxy mode address => some (env.urlToString (schemeOf mode ++ address))
  | Directive.other _ => none

/-- The candidate the specification reads from a directive: its type and
its normalised address. -/
def Directive.reading (env : Env) : Directive → Option (ProxyType × QString)
  | Directive.direct => some (ProxyType.Direct, "DIRECT".toList)
  | Directive.proxy mode address =>
    some (if inAnyCase "PROXY".toList mode then ProxyType.Proxy else ProxyType.Socks,
      env.urlToString (schemeOf mode ++ address))
  | Directive.other _ => none

/-- The reply for a list of kept elements: the list, or DIRECT alone when
nothing was kept. -/
def orDirect (kept : QStringList) : QStringList :=
  if kept = [] then ["DIRECT".toList] else kept

/-! ## Sample collaborators, for concrete runs -/

/-- One trailing slash removed. -/
def stripTrailingSlash (u : QString) : QString :=
  if u.getLast? = some '/' then u.dropLast else u

/-- A small world to run the service in: URLs are their own string form and
valid when they hold no whitespace, the configuration names an explicit
script on the network, and the script engine hands back the text of the
script as the directive string for every URL, or throws when that text starts
with an exclamation mark. -/
def sampleEnv : Env where
  isKnownProtocol p :=
    p == "http".toList || p == "https".toList || p == "ftp".toList || p == "socks".toList
      || p == "file".toList
  urlIsValid u := !u.isEmpty && !u.any isSpace
  urlToString u := u
  urlMatches a b := stripTrailingSlash a == stripTrailingSlash b
  isLocalFile u := u.take 7 == "file://".toList
  urlPath u := u.drop 7
  fromLocalFile p := "file://".toList ++ p
  fileExists _ := true
  proxyType := KProxyType.PACProxy
  proxyConfigScript := "http://wpad.example/proxy.pac".toList
  scriptError code := if code.isEmpty then some "empty script".toList else none
  evaluate script _ :=
    if script.code.head? = some '!' then Except.error script.code.tail
    else Except.ok script.code

/-- The sample world with discovery configured. -/
def sampleEnvWPAD : Env := { sampleEnv with proxyType := KProxyType.WPADProxy }

/-- A new ProxyScout (lines 82-92). -/
def idle : ProxyScout :=
  { m_downloader := none, m_script := none, m_requestQueue := [],
    m_blackList := BlackList.empty, m_suspendTime := 0, m_watcher := none }

/-- The sample service with a script loaded whose text is `code`. -/
def readyWith (code : QString) : ProxyScout :=
  { idle with
    m_downloader := some ((Downloader.create DownloaderKind.Downloader).download
      sampleEnv.proxyConfigScript),
    m_script := some (Script.mk code) }

/-- The sample service while its first fetch is under way: one request for
all proxies of http://example.org/ is queued on handle 1. -/
def fetching : ProxyScout :=
  (proxiesForUrl sampleEnv 900 idle "http://example.org/".toList 1).state

/-- The sample service with a second request queued, for one proxy of
http://example.net/ on handle 2. -/
def fetchingTwo : ProxyScout :=
  (proxyForUrl sampleEnv 901 fetching "http://example.net/".toList 2).state

/-- The downloader of the sample service. -/
def sampleDownloader : Downloader :=
  (Downloader.create DownloaderKind.Downloader).download sampleEnv.proxyConfigScript

/-- The sample service with two requests queued when the downloader has
fetched the script text `code`. -/
def fetched (code : QString) : ProxyScout :=
  { fetchingTwo with m_downloader := some { sampleDownloader with script := code } }

/-- The sample world with a local file configured as the script. -/
def sampleEnvFile : Env :=
  { sampleEnv with proxyConfigScript := "file:///etc/proxy.pac".toList }

/-- The state once the downloader has fetched the text `code`: what
m_downloader->script() reports from then on. -/
def withFetched (code : QString) (s : ProxyScout) : ProxyScout :=
  { s with m_downloader := s.m_downloader.map (fun d => { d with script := code }) }

/-- The sample service with the local script file after its first download:
the first call started the download and the watch, the downloader fetched the
text DIRECT and the download completed at 20. -/
def loadedFromFile : Option ProxyScout :=
  (downloadResult sampleEnvFile 20
      (withFetched "DIRECT".toList
        (proxiesForUrl sampleEnvFile 10 idle "http://example.org/".toList 1).state) true).map
    (fun loaded => loaded.state)

/-- The same service after the watched file changed: proxyScriptFileChanged
started the download again, the downloader fetched the new text
PROXY 10.0.0.1:8080 and the second download completed at 30. -/
def reloaded : Option ProxyScout :=
  loadedFromFile.bind (fun loaded =>
    (proxyScriptFileChanged sampleEnvFile loaded "/etc/proxy.pac".toList).bind (fun changed =>
      (downloadResult sampleEnvFile 30
          (withFetched "PROXY 10.0.0.1:8080".toList changed.state) true).map
        (fun again => again.state)))

end KPAC

/-! ## Lemmas on QString -/

namespace KPAC

theorem isSpace_semicolon : isSpace ';' = false := by decide

theorem isSpace_blank : isSpace ' ' = true := by decide

theorem splitAll_ne_nil (sep : Char) (s : QString) : splitAll sep s ≠ [] := by
  induction s with
  | nil => simp [splitAll]
  | cons c cs ih =>
    unfold splitAll
    split
    · simp
    · simpa using ih

theorem splitAll_of_not_mem (sep : Char) (a : QString) (h : sep ∉ a) :
    splitAll sep a = [a] := by
  induction a with
  | nil => simp [splitAll]
  | cons c cs ih =>
    simp only [List.mem_cons, not_or] at h
    have hc : ¬ c = sep := fun e => h.1 e.symm
    simp [splitAll, hc, ih h.2]

theorem splitAll_append_sep (sep : Char) (a b : QString) (h : sep ∉ a) :
    splitAll sep (a ++ sep :: b) = a :: splitAll sep b := by
  induction a with
  | nil => simp [splitAll]
  | cons c cs ih =>
    simp only [List.mem_cons, not_or] at h
    have hc : ¬ c = sep := fun e => h.1 e.symm
    simp [splitAll, hc, ih h.2]

theorem splitAll_intercalate (sep : Char) (ps : List QString)
    (h : ∀ p ∈ ps, sep ∉ p) (hne : ps ≠ []) :
    splitAll sep (List.intercalate [sep] ps) = ps := by
  induction ps with
  | nil => exact absurd rfl hne
  | cons p rest ih =>
    cases rest with
    | nil =>
      simpa [List.intercalate] using splitAll_of_not_mem sep p (h p (by simp))
    | cons q rest =>
      have hq : ∀ x ∈ q :: rest, sep ∉ x := fun x hx => h x (List.mem_cons_of_mem _ hx)
      have e : List.intercalate [sep] (p :: q :: rest)
          = p ++ sep :: List.intercalate [sep] (q :: rest) := by
        simp [List.intercalate, List.intersperse]
      rw [e, splitAll_append_sep sep p _ (h p (by simp)), ih hq (by simp)]

theorem trimmed_nil : trimmed [] = [] := by
  simp [trimmed, List.rdropWhile_nil]

theorem trimmed_cons_space (c : Char) (s : QString) (h : isSpace c = true) :
    trimmed (c :: s) = trimmed s := by
  simp [trimmed, h]

theorem trimmed_concat_space (s : QString) (c : Char) (h : isSpace c = true) :
    trimmed (s ++ [c]) = trimmed s := by
  unfold trimmed
  rw [List.dropWhile_append]
  by_cases he : (List.dropWhile isSpace s).isEmpty = true
  · have hnil : List.dropWhile isSpace s = [] := by simpa using he
    simp [hnil, h, List.rdropWhile_nil]
  · rw [if_neg he, List.rdropWhile_concat_pos _ _ _ h]

theorem trimmed_spaces_append (a s : QString) (h : ∀ c ∈ a, isSpace c = true) :
    trimmed (a ++ s) = trimmed s := by
  induction a with
  | nil => rfl
  | cons c cs ih =>
    have hc : isSpace c = true := h c (by simp)
    rw [List.cons_append, trimmed_cons_space _ _ hc]
    exact ih (fun x hx => h x (List.mem_cons_of_mem _ hx))

theorem trimmed_append_spaces (s a : QString) (h : ∀ c ∈ a, isSpace c = true) :
    trimmed (s ++ a) = trimmed s := by
  induction a generalizing s with
  | nil => simp
  | cons c cs ih =>
    have hc : isSpace c = true := h c (by simp)
    have e : s ++ c :: cs = (s ++ [c]) ++ cs := by simp
    rw [e, ih (s ++ [c]) (fun x hx => h x (List.mem_cons_of_mem _ hx)),
      trimmed_concat_space _ _ hc]

/-- A text that starts and ends with a character that is no whitespace is
its own trimmed form. -/
theorem trimmed_eq_self (c d : Char) (m : QString) (hc : isSpace c = false)
    (hd : isSpace d = false) : trimmed (c :: m ++ [d]) = c :: m ++ [d] := by
  unfold trimmed
  have e : List.dropWhile isSpace (c :: m ++ [d]) = c :: m ++ [d] := by
    simp [List.dropWhile_cons, hc]
  rw [e]
  have e2 : c :: m ++ [d] = (c :: m) ++ [d] := by simp
  rw [e2, List.rdropWhile_concat_neg]
  simp [hd]

theorem getLast_not_space_of_trimmed (a : QString) (h : trimmed a = a) (hne : a ≠ []) :
    ∃ init d, a = init ++ [d] ∧ isSpace d = false := by
  have hl : List.rdropWhile isSpace (List.dropWhile isSpace a) ≠ [] := by
    intro e
    apply hne
    rw [← h]
    exact e
  have hlast := List.rdropWhile_last_not isSpace (List.dropWhile isSpace a) hl
  refine ⟨a.dropLast, a.getLast hne, (List.dropLast_append_getLast hne).symm, ?_⟩
  have e : (List.rdropWhile isSpace (List.dropWhile isSpace a)).getLast hl = a.getLast hne := by
    congr 1
  rw [e] at hlast
  simpa using hlast

/-! ## The outer trim and the skipped empty parts do not change the candidates -/

theorem splitAll_concat (sep c : Char) (hc : c ≠ sep) (r : QString) :
    ∃ init last, splitAll sep r = init ++ [last]
      ∧ splitAll sep (r ++ [c]) = init ++ [last ++ [c]] := by
  induction r with
  | nil => exact ⟨[], [], by simp [splitAll], by simp [splitAll, hc]⟩
  | cons x xs ih =>
    obtain ⟨init, last, h1, h2⟩ := ih
    by_cases hx : x = sep
    · exact ⟨[] :: init, last, by simp [splitAll, hx, h1], by simp [splitAll, hx, h2]⟩
    · cases init with
      | nil =>
        exact ⟨[], x :: last, by simp [splitAll, hx, h1], by simp [splitAll, hx, h2]⟩
      | cons i is =>
        exact ⟨(x :: i) :: is, last, by simp [splitAll, hx, h1], by simp [splitAll, hx, h2]⟩

theorem map_trimmed_splitAll_dropWhile (r : QString) :
    (splitAll ';' (r.dropWhile isSpace)).map trimmed = (splitAll ';' r).map trimmed := by
  induction r with
  | nil => rfl
  | cons c cs ih =>
    by_cases hc : isSpace c = true
    · have hsep : ¬ c = ';' := by
        intro e
        rw [e] at hc
        simp [isSpace_semicolon] at hc
      rw [List.dropWhile_cons_of_pos hc, ih]
      have hne := splitAll_ne_nil ';' cs
      cases hs : splitAll ';' cs with
      | nil => exact absurd hs hne
      | cons p ps => simp [splitAll, hsep, hs, trimmed_cons_space _ _ hc]
    · rw [List.dropWhile_cons_of_neg hc]

theorem map_trimmed_splitAll_rdropWhile (r : QString) :
    (splitAll ';' (r.rdropWhile isSpace)).map trimmed = (splitAll ';' r).map trimmed := by
  induction r using List.reverseRecOn with
  | nil => simp [List.rdropWhile_nil]
  | append_singleton xs c ih =>
    by_cases hc : isSpace c = true
    · have hsep : c ≠ ';' := by
        intro e
        rw [e] at hc
        simp [isSpace_semicolon] at hc
      rw [List.rdropWhile_concat_pos _ _ _ hc, ih]
      obtain ⟨init, last, h1, h2⟩ := splitAll_concat ';' c hsep xs
      rw [h1, h2]
      simp [trimmed_concat_space _ _ hc]
    · rw [List.rdropWhile_concat_neg _ _ _ hc]

theorem map_trimmed_splitAll_trimmed (r : QString) :
    (splitAll ';' (trimmed r)).map trimmed = (splitAll ';' r).map trimmed := by
  have e : trimmed r = (r.dropWhile isSpace).rdropWhile isSpace := rfl
  rw [e, map_trimmed_splitAll_rdropWhile, map_trimmed_splitAll_dropWhile]

theorem candidate_nil (env : Env) : candidate env [] = none := by
  simp [candidate, modeAndAddress, indexOf, proxyTypeFor, equalsNoCase]

theorem classify_nil (env : Env) : classify env [] = none := by
  simp [classify, trimmed_nil, candidate_nil]

theorem filterMap_classify_filter (env : Env) (l : QStringList) :
    (l.filter (fun p => !p.isEmpty)).filterMap (classify env) = l.filterMap (classify env) := by
  induction l with
  | nil => rfl
  | cons p ps ih =>
    cases p with
    | nil => simp [classify_nil, ih]
    | cons c cs => simp [List.filterMap_cons, ih]

/-- The candidates of a script result are those of its pieces between the
semicolons: the trim of the whole result and the skipping of empty pieces
make no difference. -/
theorem candidates_eq (env : Env) (r : QString) :
    candidates env r = (splitAll ';' r).filterMap (classify env) := by
  have e : ∀ l : QStringList,
      l.filterMap (classify env) = (l.map trimmed).filterMap (candidate env) := by
    intro l
    rw [List.filterMap_map]
    rfl
  unfold candidates split
  rw [filterMap_classify_filter, e, map_trimmed_splitAll_trimmed, ← e]

/-! ## Reading one well-formed segment -/

theorem foldCase_of_space (c : Char) (h : isSpace c = true) : foldCase c = c := by
  unfold isSpace at h
  unfold foldCase
  simp only [Bool.or_eq_true, Bool.and_eq_true, beq_iff_eq, decide_eq_true_eq] at h
  have h1 : ¬ (65 ≤ c.toNat ∧ c.toNat ≤ 90) := by omega
  have h2 : ¬ c.toNat = 383 := by omega
  have h3 : ¬ c.toNat = 8490 := by omega
  simp [h1, h2, h3]

theorem foldCase_semicolon : foldCase ';' = ';' := by decide

/-- A character is plain when it is neither whitespace nor a semicolon. -/
theorem plain_of_foldCase (c : Char)
    (h : isSpace (foldCase c) = false ∧ foldCase c ≠ ';') : isSpace c = false ∧ c ≠ ';' := by
  constructor
  · by_contra hs
    have hs1 : isSpace c = true := by simpa using hs
    rw [foldCase_of_space c hs1] at h
    rw [h.1] at hs1
    exact Bool.noConfusion hs1
  · intro e
    apply h.2
    rw [e]
    exact foldCase_semicolon

theorem plain_of_equalsNoCase (mode lit : QString) (h : equalsNoCase mode lit = true)
    (hlit : ∀ x ∈ lit.map foldCase, isSpace x = false ∧ x ≠ ';') :
    ∀ c ∈ mode, isSpace c = false ∧ c ≠ ';' := by
  intro c hc
  have e : mode.map foldCase = lit.map foldCase := by simpa [equalsNoCase] using h
  apply plain_of_foldCase
  apply hlit
  rw [← e]
  exact List.mem_map_of_mem _ hc

theorem equalsNoCase_ne_nil (mode lit : QString) (h : equalsNoCase mode lit = true)
    (hlit : lit ≠ []) : mode ≠ [] := by
  intro e
  rw [e] at h
  cases lit with
  | nil => exact hlit rfl
  | cons x xs => simp [equalsNoCase] at h

/-! ## Letter case: the folding of QChar against the case variants -/

theorem toNat_ofNat_small (n : Nat) (h1 : 97 ≤ n) (h2 : n ≤ 122) :
    (Char.ofNat n).toNat = n := by
  interval_cases n <;> rfl

theorem foldCase_cases (c x : Char) (h : foldCase c = x) :
    c = x ∨ (65 ≤ c.toNat ∧ c.toNat ≤ 90 ∧ x.toNat = c.toNat + 32)
      ∨ (c.toNat = 383 ∧ x = 's') ∨ (c.toNat = 8490 ∧ x = 'k') := by
  unfold foldCase at h
  by_cases hU : 65 ≤ c.toNat ∧ c.toNat ≤ 90
  · rw [if_pos hU] at h
    right
    left
    refine ⟨hU.1, hU.2, ?_⟩
    rw [← h]
    exact toNat_ofNat_small _ (by omega) (by omega)
  · rw [if_neg hU] at h
    by_cases hs : c.toNat = 383
    · rw [if_pos hs] at h
      exact Or.inr (Or.inr (Or.inl ⟨hs, h.symm⟩))
    · rw [if_neg hs] at h
      by_cases hk : c.toNat = 8490
      · rw [if_pos hk] at h
        exact Or.inr (Or.inr (Or.inr ⟨hk, h.symm⟩))
      · rw [if_neg hk] at h
        exact Or.inl h

/-- A character folds like `w` exactly when it is a case variant of `w`. -/
theorem foldCase_eq_iff_variant (w : Char) (hw : variantsComplete w = true) (c : Char) :
    foldCase c = foldCase w ↔ c ∈ caseVariants w := by
  unfold variantsComplete at hw
  simp only [Bool.and_eq_true, Bool.or_eq_true, Bool.not_eq_true', decide_eq_true_eq,
    decide_eq_false_iff_not, List.all_eq_true, beq_iff_eq] at hw
  obtain ⟨⟨⟨⟨hall, hself⟩, hup⟩, hs⟩, hk⟩ := hw
  constructor
  · intro h
    rcases foldCase_cases c (foldCase w) h with e | ⟨h1, h2, h3⟩ | ⟨h1, h2⟩ | ⟨h1, h2⟩
    · rw [e]
      exact hself
    · have hrange : 97 ≤ (foldCase w).toNat ∧ (foldCase w).toNat ≤ 122 := by omega
      rcases hup with hno | hin
      · exact absurd hrange hno
      · have e : (foldCase w).toNat - 32 = c.toNat := by omega
        rw [e, Char.ofNat_toNat] at hin
        exact hin
    · rcases hs with hno | hin
      · exact absurd h2 hno
      · rw [← h1, Char.ofNat_toNat] at hin
        exact hin
    · rcases hk with hno | hin
      · exact absurd h2 hno
      · rw [← h1, Char.ofNat_toNat] at hin
        exact hin
  · intro h
    exact hall c h

/-- The comparison of proxyTypeFor holds exactly for the texts that are the
word in some letter case. -/
theorem equalsNoCase_eq_inAnyCase (word : QString)
    (hword : ∀ w ∈ word, variantsComplete w = true) (mode : QString) :
    equalsNoCase mode word = inAnyCase word mode := by
  induction word generalizing mode with
  | nil =>
    cases mode with
    | nil => rfl
    | cons c cs => simp [equalsNoCase, inAnyCase]
  | cons w ws ih =>
    cases mode with
    | nil => simp [equalsNoCase, inAnyCase]
    | cons c cs =>
      have hrest := ih (fun x hx => hword x (List.mem_cons_of_mem _ hx)) cs
      have hhead := foldCase_eq_iff_variant w (hword w (List.mem_cons_self _ _)) c
      unfold equalsNoCase at hrest ⊢
      unfold inAnyCase
      rw [← hrest, Bool.eq_iff_iff]
      simp only [List.map_cons, Bool.and_eq_true, decide_eq_true_eq, beq_iff_eq,
        List.cons.injEq, hhead]

theorem equalsNoCase_PROXY (mode : QString) :
    equalsNoCase mode "PROXY".toList = inAnyCase "PROXY".toList mode :=
  equalsNoCase_eq_inAnyCase _ (by decide) mode

theorem equalsNoCase_DIRECT (mode : QString) :
    equalsNoCase mode "DIRECT".toList = inAnyCase "DIRECT".toList mode :=
  equalsNoCase_eq_inAnyCase _ (by decide) mode

theorem equalsNoCase_SOCKS (mode : QString) :
    equalsNoCase mode "SOCKS".toList = inAnyCase "SOCKS".toList mode :=
  equalsNoCase_eq_inAnyCase _ (by decide) mode

theorem equalsNoCase_SOCKS5 (mode : QString) :
    equalsNoCase mode "SOCKS5".toList = inAnyCase "SOCKS5".toList mode :=
  equalsNoCase_eq_inAnyCase _ (by decide) mode

theorem mode_equalsNoCase (mode : QString)
    (h : inAnyCase "PROXY".toList mode = true ∨ inAnyCase "SOCKS".toList mode = true
      ∨ inAnyCase "SOCKS5".toList mode = true) :
    equalsNoCase mode "PROXY".toList = true ∨ equalsNoCase mode "SOCKS".toList = true
      ∨ equalsNoCase mode "SOCKS5".toList = true := by
  rw [equalsNoCase_PROXY, equalsNoCase_SOCKS, equalsNoCase_SOCKS5]
  exact h

/-- The mode of a well-formed PROXY or SOCKS directive is not empty and holds
no whitespace and no semicolon. -/
theorem mode_plain (mode : QString)
    (h : equalsNoCase mode "PROXY".toList = true ∨ equalsNoCase mode "SOCKS".toList = true
      ∨ equalsNoCase mode "SOCKS5".toList = true) :
    mode ≠ [] ∧ ∀ c ∈ mode, isSpace c = false ∧ c ≠ ';' := by
  rcases h with h | h | h
  · exact ⟨equalsNoCase_ne_nil _ _ h (by decide), plain_of_equalsNoCase _ _ h (by decide)⟩
  · exact ⟨equalsNoCase_ne_nil _ _ h (by decide), plain_of_equalsNoCase _ _ h (by decide)⟩
  · exact ⟨equalsNoCase_ne_nil _ _ h (by decide), plain_of_equalsNoCase _ _ h (by decide)⟩

theorem indexOf_append (c : Char) (a b : QString) (h : c ∉ a) :
    indexOf c (a ++ c :: b) = some a.length := by
  induction a with
  | nil => simp [indexOf]
  | cons x xs ih =>
    simp only [List.mem_cons, not_or] at h
    have hx : ¬ x = c := fun e => h.1 e.symm
    simp [indexOf, hx, ih h.2]

theorem indexOf_some (c : Char) (s : QString) (i : Nat) (h : indexOf c s = some i) :
    i < s.length ∧ s[i]? = some c := by
  induction s generalizing i with
  | nil => simp [indexOf] at h
  | cons x xs ih =>
    by_cases hx : x = c
    · simp [indexOf, hx] at h
      subst h
      simp [hx]
    · simp only [indexOf, hx, if_false, Option.map_eq_some'] at h
      obtain ⟨j, hj, rfl⟩ := h
      have := ih j hj
      exact ⟨by simpa using this.1, by simpa using this.2⟩

theorem modeAndAddress_fst (x : QString) :
    (modeAndAddress x).1 = x.takeWhile (fun c => c ≠ ' ') := by
  unfold modeAndAddress
  induction x with
  | nil => simp [indexOf]
  | cons c cs ih =>
    by_cases hc : c = ' '
    · simp [indexOf, hc, left]
    · cases hi : indexOf ' ' cs with
      | none =>
        rw [hi] at ih
        simp only at ih
        simp only [indexOf, hc, hi, if_false, Option.map_none', List.takeWhile_cons]
        simpa [hc] using ih
      | some i =>
        rw [hi] at ih
        simp only [left] at ih
        simp only [indexOf, hc, hi, if_false, Option.map_some', left, List.takeWhile_cons,
          List.take_succ_cons]
        simpa [hc] using ih

theorem trimmed_segment (g : Segment) (hl : ∀ c ∈ g.lead, isSpace c = true)
    (ht : ∀ c ∈ g.trail, isSpace c = true) : trimmed g.text = trimmed g.body.text := by
  unfold Segment.text
  rw [trimmed_append_spaces _ _ ht, trimmed_spaces_append _ _ hl]

theorem candidate_direct (env : Env) :
    candidate env "DIRECT".toList = some (ProxyType.Direct, "DIRECT".toList) := by
  have hma : modeAndAddress "DIRECT".toList = ("DIRECT".toList, "DIRECT".toList) := by decide
  have hty : proxyTypeFor "DIRECT".toList = ProxyType.Direct := by decide
  unfold candidate
  simp only [hma, hty]
  rfl

theorem normaliseAddress_bare (env : Env) (ty : ProxyType) (address : QString)
    (hty : ty = ProxyType.Proxy ∨ ty = ProxyType.Socks)
    (hk : knownProtocolAt env address = false)
    (hv : env.urlIsValid
      ((if ty = ProxyType.Proxy then "http://".toList else "socks://".toList) ++ address) = true) :
    normaliseAddress env ty address
      = some (env.urlToString
          ((if ty = ProxyType.Proxy then "http://".toList else "socks://".toList) ++ address)) := by
  have hbare : (match indexOf ':' address with
      | none => true
      | some index => !env.isKnownProtocol (left index address)) = true := by
    cases hi : indexOf ':' address with
    | none => rfl
    | some i =>
      have h := indexOf_some _ _ _ hi
      unfold knownProtocolAt at hk
      rw [List.any_eq_false] at hk
      have hk2 := hk i (List.mem_range.mpr h.1)
      simp only [h.2, beq_self_eq_true, Bool.true_and] at hk2
      simpa [left] using hk2
  unfold normaliseAddress
  simp only [hty, if_true, hbare]
  simp only [hv, if_true]

theorem proxyTypeFor_of_wellFormed (mode : QString)
    (h : equalsNoCase mode "PROXY".toList = true ∨ equalsNoCase mode "SOCKS".toList = true
      ∨ equalsNoCase mode "SOCKS5".toList = true) :
    proxyTypeFor mode
      = if equalsNoCase mode "PROXY".toList then ProxyType.Proxy else ProxyType.Socks := by
  unfold proxyTypeFor
  by_cases hp : equalsNoCase mode "PROXY".toList = true
  · rw [if_pos hp, if_pos hp]
  · have hs : equalsNoCase mode "SOCKS".toList = true ∨ equalsNoCase mode "SOCKS5".toList = true := by
      rcases h with h | h | h
      · exact absurd h hp
      · exact Or.inl h
      · exact Or.inr h
    have hd : ¬ equalsNoCase mode "DIRECT".toList = true := by
      rcases hs with h | h
      · have e : mode.map foldCase = "SOCKS".toList.map foldCase := by
          simpa [equalsNoCase] using h
        simp only [equalsNoCase, e]
        decide
      · have e : mode.map foldCase = "SOCKS5".toList.map foldCase := by
          simpa [equalsNoCase] using h
        simp only [equalsNoCase, e]
        decide
    have hs2 : (equalsNoCase mode "SOCKS".toList || equalsNoCase mode "SOCKS5".toList) = true := by
      rcases hs with h | h
      · rw [h]; rfl
      · rw [h, Bool.or_true]
    rw [if_neg hp, if_neg hp, if_neg hd, if_pos hs2]

theorem candidate_proxy (env : Env) (mode address : QString)
    (h : (Directive.proxy mode address).WellFormed env) :
    candidate env (mode ++ ' ' :: address) = (Directive.proxy mode address).reading env := by
  obtain ⟨hmode0, hne, htrim, _, hk, hv⟩ := h
  have hmode := mode_equalsNoCase mode hmode0
  have hplain := (mode_plain mode hmode).2
  have hblank : ' ' ∉ mode := by
    intro hmem
    have := (hplain _ hmem).1
    rw [isSpace_blank] at this
    exact Bool.noConfusion this
  have hty := proxyTypeFor_of_wellFormed mode hmode
  have hma : modeAndAddress (mode ++ ' ' :: address) = (mode, address) := by
    unfold modeAndAddress
    rw [indexOf_append _ _ _ hblank]
    simp [left, mid, htrim]
  unfold candidate
  simp only [hma, hty]
  have hty2 : (if equalsNoCase mode "PROXY".toList = true then ProxyType.Proxy else ProxyType.Socks)
      = ProxyType.Proxy ∨
      (if equalsNoCase mode "PROXY".toList = true then ProxyType.Proxy else ProxyType.Socks)
      = ProxyType.Socks := by
    by_cases hp : equalsNoCase mode "PROXY".toList = true <;> simp [hp]
  have hscheme : (if (if equalsNoCase mode "PROXY".toList = true then ProxyType.Proxy
        else ProxyType.Socks) = ProxyType.Proxy then "http://".toList else "socks://".toList)
      = schemeOf mode := by
    unfold schemeOf
    rw [← equalsNoCase_PROXY]
    by_cases hp : equalsNoCase mode "PROXY".toList = true <;> simp [hp]
  have hnu : ¬ (if equalsNoCase mode "PROXY".toList = true then ProxyType.Proxy
      else ProxyType.Socks) = ProxyType.Unknown := by
    rcases hty2 with e | e <;> rw [e] <;> decide
  rw [if_neg hnu, normaliseAddress_bare env _ address hty2 hk (by rw [hscheme]; exact hv), hscheme]
  have hr : (Directive.proxy mode address).reading env
      = some (if equalsNoCase mode "PROXY".toList then ProxyType.Proxy else ProxyType.Socks,
          env.urlToString (schemeOf mode ++ address)) := by
    rw [equalsNoCase_PROXY]
    rfl
  rw [hr]
  rfl

theorem candidate_other (env : Env) (text : QString)
    (h : (Directive.other text).WellFormed env) : candidate env (trimmed text) = none := by
  obtain ⟨_, h1, h2, h3, h4⟩ := h
  rw [← equalsNoCase_PROXY] at h1
  rw [← equalsNoCase_DIRECT] at h2
  rw [← equalsNoCase_SOCKS] at h3
  rw [← equalsNoCase_SOCKS5] at h4
  unfold candidate
  have hm : (modeAndAddress (trimmed text)).1 = modeOf text := modeAndAddress_fst _
  simp only [hm]
  have : proxyTypeFor (modeOf text) = ProxyType.Unknown := by
    unfold proxyTypeFor
    rw [h1, h2, h3, h4]
    rfl
  rw [this, if_pos rfl]

/-- The loop reads from a well-formed segment the candidate the
specification reads from its directive. -/
theorem classify_segment (env : Env) (g : Segment) (h : g.WellFormed env) :
    classify env g.text = g.body.reading env := by
  obtain ⟨hl, ht, hb⟩ := h
  unfold classify
  rw [trimmed_segment g hl ht]
  cases hbody : g.body with
  | direct =>
    have e : trimmed "DIRECT".toList = "DIRECT".toList := by decide
    simp only [Directive.text, e, candidate_direct, Directive.reading]
  | proxy mode address =>
    rw [hbody] at hb
    have hwf := hb
    obtain ⟨hmode, hne, htrim, _, _, _⟩ := hb
    obtain ⟨hmne, hplain⟩ := mode_plain mode (mode_equalsNoCase mode hmode)
    obtain ⟨init, d, ha, hd⟩ := getLast_not_space_of_trimmed address htrim hne
    cases hm : mode with
    | nil => exact absurd hm hmne
    | cons m ms =>
      have hmsp : isSpace m = false := (hplain m (by simp [hm])).1
      have e : trimmed ((m :: ms) ++ ' ' :: address) = (m :: ms) ++ ' ' :: address := by
        have e2 : (m :: ms) ++ ' ' :: address = m :: (ms ++ ' ' :: init) ++ [d] := by
          simp [ha]
        rw [e2]
        exact trimmed_eq_self m d _ hmsp hd
      simp only [Directive.text, e]
      rw [← hm]
      exact candidate_proxy env mode address hwf
  | other text =>
    rw [hbody] at hb
    simp only [Directive.text, Directive.reading]
    exact candidate_other env text hb

theorem semicolon_not_mem_segment (env : Env) (g : Segment) (h : g.WellFormed env) :
    ';' ∉ g.text := by
  obtain ⟨hl, ht, hb⟩ := h
  have hsp : ∀ a : QString, (∀ c ∈ a, isSpace c = true) → ';' ∉ a := by
    intro a ha hmem
    have := ha _ hmem
    rw [isSpace_semicolon] at this
    exact Bool.noConfusion this
  have hbody : ';' ∉ g.body.text := by
    cases hbd : g.body with
    | direct => simp only [Directive.text]; decide
    | proxy mode address =>
      rw [hbd] at hb
      obtain ⟨hmode, _, _, hsemi, _, _⟩ := hb
      have hplain := (mode_plain mode (mode_equalsNoCase mode hmode)).2
      simp only [Directive.text, List.mem_append, List.mem_cons, not_or]
      exact ⟨fun hm => (hplain _ hm).2 rfl, by decide, hsemi⟩
    | other text =>
      rw [hbd] at hb
      exact hb.1
  unfold Segment.text
  simp only [List.mem_append, not_or]
  exact ⟨⟨hsp _ hl, hbody⟩, hsp _ ht⟩

/-- The candidates of a script result made of well-formed segments are the
readings of its directives, in order. -/
theorem candidates_resultText (env : Env) (segs : List Segment)
    (h : ∀ g ∈ segs, g.WellFormed env) :
    candidates env (resultText segs) = segs.filterMap (fun g => g.body.reading env) := by
  rw [candidates_eq]
  cases hs : segs with
  | nil => simp [resultText, splitAll, classify_nil]
  | cons g rest =>
    rw [← hs]
    unfold resultText
    rw [splitAll_intercalate]
    · rw [List.filterMap_map]
      apply List.filterMap_congr
      intro g hg
      exact classify_segment env g (h g hg)
    · intro p hp
      obtain ⟨g, hg, rfl⟩ := List.mem_map.mp hp
      exact semicolon_not_mem_segment env g (h g hg)
    · simp [hs]

/-! ## The loop of handleRequest -/

theorem foldl_handleEntry (env : Env) (now : Int) (l : QStringList)
    (acc : QStringList × BlackList) :
    l.foldl (handleEntry env now) acc
      = (l.filterMap (classify env)).foldl (blackListStep now) acc := by
  induction l generalizing acc with
  | nil => rfl
  | cons e es ih =>
    rw [List.foldl_cons, ih, List.filterMap_cons]
    unfold handleEntry
    cases classify env e with
    | none => rfl
    | some c => rfl

theorem blackListStep_fst (now : Int) (acc : QStringList) (bl : BlackList)
    (c : ProxyType × QString) :
    (blackListStep now (acc, bl) c).1 = if keeps now bl c then acc ++ [c.2] else acc := by
  unfold blackListStep keeps freshAt BlackList.contains BlackList.value
  by_cases hd : c.1 = ProxyType.Direct
  · simp [hd]
  · cases hb : bl c.2 with
    | none => simp [hd, hb]
    | some t =>
      by_cases ht : now - t > 1800
      · have : ¬ now - t ≤ 1800 := by omega
        simp [hd, hb, ht, this]
      · have : now - t ≤ 1800 := by omega
        simp [hd, hb, ht, this]

theorem blackListStep_snd (now : Int) (acc : QStringList) (bl : BlackList)
    (c : ProxyType × QString) :
    (blackListStep now (acc, bl) c).2
      = if c.1 ≠ ProxyType.Direct ∧ expiredAt now bl c.2 = true then bl.remove c.2 else bl := by
  unfold blackListStep expiredAt BlackList.contains BlackList.value
  by_cases hd : c.1 = ProxyType.Direct
  · simp [hd]
  · cases hb : bl c.2 with
    | none => simp [hd, hb]
    | some t =>
      by_cases ht : now - t > 1800
      · simp [hd, hb, ht]
      · simp [hd, hb, ht]

theorem freshAt_remove (now : Int) (bl : BlackList) (a : QString)
    (h : expiredAt now bl a = true) (k : QString) :
    freshAt now (bl.remove a) k = freshAt now bl k := by
  unfold freshAt BlackList.remove
  by_cases hk : k = a
  · subst hk
    unfold expiredAt at h
    cases hb : bl k with
    | none => simp
    | some t =>
      rw [hb] at h
      have h1 : now - t > 1800 := by simpa using h
      have : ¬ now - t ≤ 1800 := by omega
      simp [this]
  · simp [hk]

theorem freshAt_blackListStep (now : Int) (acc : QStringList) (bl : BlackList)
    (c : ProxyType × QString) (k : QString) :
    freshAt now (blackListStep now (acc, bl) c).2 k = freshAt now bl k := by
  rw [blackListStep_snd]
  split
  · next h => exact freshAt_remove now bl c.2 h.2 k
  · rfl

theorem keeps_congr (now : Int) (bl bl1 : BlackList)
    (h : ∀ k, freshAt now bl1 k = freshAt now bl k) : keeps now bl1 = keeps now bl := by
  funext c
  unfold keeps
  rw [h]

/-- The list the loop builds: the addresses of the candidates that pass the
blacklist as it was before the loop, in order. -/
theorem loop_fst (now : Int) (cands : List (ProxyType × QString)) (acc : QStringList)
    (bl : BlackList) :
    (cands.foldl (blackListStep now) (acc, bl)).1
      = acc ++ (cands.filter (keeps now bl)).map Prod.snd := by
  induction cands generalizing acc bl with
  | nil => simp
  | cons c rest ih =>
    rw [List.foldl_cons]
    have e : blackListStep now (acc, bl) c
        = ((blackListStep now (acc, bl) c).1, (blackListStep now (acc, bl) c).2) := rfl
    rw [e, ih, keeps_congr now bl _ (freshAt_blackListStep now acc bl c), blackListStep_fst]
    by_cases hk : keeps now bl c = true
    · simp [hk, List.filter_cons]
    · simp [hk, List.filter_cons]

/-- The blacklist the loop leaves: the entries of before, without the expired
entries of the PROXY and SOCKS candidates. -/
theorem loop_snd (now : Int) (cands : List (ProxyType × QString)) (acc : QStringList)
    (bl : BlackList) (k : QString) :
    (cands.foldl (blackListStep now) (acc, bl)).2 k
      = if evicted now bl cands k = true then none else bl k := by
  induction cands generalizing acc bl with
  | nil => simp [evicted]
  | cons c rest ih =>
    rw [List.foldl_cons]
    have e : blackListStep now (acc, bl) c
        = ((blackListStep now (acc, bl) c).1, (blackListStep now (acc, bl) c).2) := rfl
    rw [e, ih, blackListStep_snd]
    by_cases hrm : c.1 ≠ ProxyType.Direct ∧ expiredAt now bl c.2 = true
    · rw [if_pos hrm]
      by_cases hk : k = c.2
      · subst hk
        have h1 : evicted now bl (c :: rest) c.2 = true := by
          simp [evicted, hrm.1, hrm.2]
        simp [h1, BlackList.remove]
      · have hbl : (bl.remove c.2) k = bl k := by simp [BlackList.remove, hk]
        have hex : expiredAt now (bl.remove c.2) k = expiredAt now bl k := by
          simp [expiredAt, hbl]
        have hk2 : ¬ c.2 = k := fun h => hk h.symm
        have hev : evicted now (bl.remove c.2) rest k = evicted now bl (c :: rest) k := by
          simp [evicted, hex, hk2]
        rw [hev, hbl]
    · rw [if_neg hrm]
      have hev : evicted now bl rest k = evicted now bl (c :: rest) k := by
        unfold evicted
        by_cases hm : c.1 ≠ ProxyType.Direct ∧ c.2 = k
        · have hx : expiredAt now bl k = false := by
            rw [← hm.2]
            by_contra hh
            exact hrm ⟨hm.1, by simpa using hh⟩
          simp [hx]
        · have : (decide (c.1 ≠ ProxyType.Direct) && decide (c.2 = k)) = false := by
            simpa using hm
          rw [List.any_cons, this, Bool.false_or]
      rw [hev]

/-! ## handleRequest as a whole -/

theorem handleRequest_loop (env : Env) (now : Int) (s : ProxyScout) (r : QString) :
    (split ';' (trimmed r)).foldl (handleEntry env now) ([], s.m_blackList)
      = (candidates env r).foldl (blackListStep now) ([], s.m_blackList) := by
  rw [foldl_handleEntry]
  rfl

theorem handleRequest_value_ok (env : Env) (now : Int) (script : Script) (s : ProxyScout)
    (url r : QString) (h : env.evaluate script url = Except.ok r) :
    (handleRequest env now script s url).value
      = orDirect (((candidates env r).filter (keeps now s.m_blackList)).map Prod.snd) := by
  unfold handleRequest
  simp only [h]
  rw [handleRequest_loop, loop_fst, List.nil_append]
  cases ((candidates env r).filter (keeps now s.m_blackList)).map Prod.snd with
  | nil => rfl
  | cons x xs => simp [orDirect]

theorem handleRequest_value_error (env : Env) (now : Int) (script : Script) (s : ProxyScout)
    (url e : QString) (h : env.evaluate script url = Except.error e) :
    (handleRequest env now script s url).value = ["DIRECT".toList] := by
  unfold handleRequest
  simp only [h]

theorem handleRequest_blackList_ok (env : Env) (now : Int) (script : Script) (s : ProxyScout)
    (url r : QString) (h : env.evaluate script url = Except.ok r) (k : QString) :
    (handleRequest env now script s url).state.m_blackList k
      = if evicted now s.m_blackList (candidates env r) k = true then none
        else s.m_blackList k := by
  unfold handleRequest
  simp only [h]
  rw [handleRequest_loop]
  split <;> exact loop_snd now _ _ _ k

theorem handleRequest_state (env : Env) (now : Int) (script : Script) (s : ProxyScout)
    (url : QString) :
    (handleRequest env now script s url).state
      = { s with m_blackList := (handleRequest env now script s url).state.m_blackList } := by
  unfold handleRequest
  cases env.evaluate script url with
  | error e => rfl
  | ok r =>
    simp only
    split <;> rfl

theorem handleRequest_freshAt (env : Env) (now : Int) (script : Script) (s : ProxyScout)
    (url : QString) (k : QString) :
    freshAt now (handleRequest env now script s url).state.m_blackList k
      = freshAt now s.m_blackList k := by
  cases h : env.evaluate script url with
  | error e =>
    unfold handleRequest
    simp only [h]
  | ok r =>
    unfold freshAt
    rw [handleRequest_blackList_ok env now script s url r h k]
    by_cases hev : evicted now s.m_blackList (candidates env r) k = true
    · rw [if_pos hev]
      have hx : expiredAt now s.m_blackList k = true := by
        unfold evicted at hev
        simp only [Bool.and_eq_true] at hev
        exact hev.2
      unfold expiredAt at hx
      cases hb : s.m_blackList k with
      | none => rfl
      | some t =>
        rw [hb] at hx
        have h1 : now - t > 1800 := by simpa using hx
        have : ¬ now - t ≤ 1800 := by omega
        simp [this]
    · rw [if_neg hev]

/-- The reply of handleRequest depends on the blacklist only through its
fresh entries. -/
theorem handleRequest_value_congr (env : Env) (now : Int) (script : Script)
    (s s1 : ProxyScout) (url : QString)
    (h : ∀ k, freshAt now s1.m_blackList k = freshAt now s.m_blackList k) :
    (handleRequest env now script s1 url).value = (handleRequest env now script s url).value := by
  cases he : env.evaluate script url with
  | error e =>
    rw [handleRequest_value_error env now script s1 url e he,
      handleRequest_value_error env now script s url e he]
  | ok r =>
    rw [handleRequest_value_ok env now script s1 url r he,
      handleRequest_value_ok env now script s url r he, keeps_congr now _ _ h]

theorem mem_orDirect (a : QString) (kept : QStringList) (h : a ∈ orDirect kept) :
    a = "DIRECT".toList ∨ a ∈ kept := by
  unfold orDirect at h
  split at h
  · left
    simpa using h
  · exact Or.inr h

theorem orDirect_of_mem (a : QString) (kept : QStringList) (h : a ∈ kept) :
    orDirect kept = kept := by
  unfold orDirect
  rw [if_neg]
  intro e
  rw [e] at h
  exact absurd h (List.not_mem_nil a)

theorem keeps_empty (now : Int) (c : ProxyType × QString) :
    keeps now BlackList.empty c = true := by
  simp [keeps, freshAt, BlackList.empty]

theorem reading_snd (env : Env) (segs : List Segment) :
    (segs.filterMap (fun g => g.body.reading env)).map Prod.snd
      = segs.filterMap (fun g => g.body.expected env) := by
  rw [List.map_filterMap]
  apply List.filterMap_congr
  intro g _
  cases g.body <;> rfl

/-! ## The entry points -/

theorem suspendGate_some (now : Int) (s s1 : ProxyScout) (h : suspendGate now s = some s1) :
    s1 = { s with m_suspendTime := 0 } := by
  unfold suspendGate at h
  by_cases h0 : s.m_suspendTime ≠ 0
  · rw [if_pos h0] at h
    by_cases hw : now - s.m_suspendTime < 300
    · rw [if_pos hw] at h
      exact Option.noConfusion h
    · rw [if_neg hw] at h
      exact (Option.some.inj h).symm
  · rw [if_neg h0] at h
    have h1 : s.m_suspendTime = 0 := by simpa using h0
    rw [← Option.some.inj h, ← h1]

theorem suspendGate_of_elapsed (now : Int) (s : ProxyScout)
    (h : ¬ (s.m_suspendTime ≠ 0 ∧ now - s.m_suspendTime < 300)) :
    suspendGate now s = some { s with m_suspendTime := 0 } := by
  cases hg : suspendGate now s with
  | none =>
    exfalso
    apply h
    unfold suspendGate at hg
    by_cases h0 : s.m_suspendTime ≠ 0
    · rw [if_pos h0] at hg
      by_cases hw : now - s.m_suspendTime < 300
      · exact ⟨h0, hw⟩
      · rw [if_neg hw] at hg
        exact Option.noConfusion hg
    · rw [if_neg h0] at hg
      exact Option.noConfusion hg
  | some s1 => rw [suspendGate_some now s s1 hg]

/-! ## Completion of a download -/

theorem replies_append (a b : List Effect) : replies (a ++ b) = replies a ++ replies b := by
  unfold replies
  rw [List.filterMap_append]

theorem replies_handleRequest (env : Env) (now : Int) (script : Script) (s : ProxyScout)
    (url : QString) : replies (handleRequest env now script s url).effects = [] := by
  unfold handleRequest
  cases env.evaluate script url with
  | error e => rfl
  | ok r =>
    simp only
    split <;> rfl

theorem replies_sendDirect (queue : List QueuedRequest) :
    replies (sendDirect queue)
      = queue.map (fun it => (it.transaction, QVariant.string "DIRECT".toList)) := by
  induction queue with
  | nil => rfl
  | cons it rest ih =>
    unfold sendDirect at ih ⊢
    unfold replies at ih ⊢
    rw [List.map_cons, List.filterMap_cons, List.map_cons, ih]

/-- The replies of the loop of lines 256-264 are those computed on any state
whose blacklist has the same fresh entries: the entries a reply evicts do not
change a later reply. -/
theorem replies_sendResults (env : Env) (now : Int) (script : Script) (base : ProxyScout)
    (queue : List QueuedRequest) (s : ProxyScout)
    (h : ∀ k, freshAt now s.m_blackList k = freshAt now base.m_blackList k) :
    replies (sendResults env now script s queue).2
      = queue.map (replyFor env now script base) := by
  induction queue generalizing s with
  | nil => rfl
  | cons it rest ih =>
    unfold sendResults
    simp only
    rw [replies_append, replies_handleRequest, List.nil_append]
    have hnext : ∀ k, freshAt now (handleRequest env now script s it.url).state.m_blackList k
        = freshAt now base.m_blackList k := by
      intro k
      rw [handleRequest_freshAt, h]
    have hcons : ∀ (m : QDBusMessage) (v : QVariant) (l : List Effect),
        replies (Effect.send m v :: l) = (m, v) :: replies l := by
      intro m v l
      rfl
    rw [hcons, ih _ hnext, List.map_cons]
    unfold replyFor
    rw [handleRequest_value_congr env now script base s it.url h]

theorem sendResults_state (env : Env) (now : Int) (script : Script)
    (queue : List QueuedRequest) (s : ProxyScout) :
    (sendResults env now script s queue).1
      = { s with m_blackList := (sendResults env now script s queue).1.m_blackList } := by
  induction queue generalizing s with
  | nil => rfl
  | cons it rest ih =>
    unfold sendResults
    simp only
    rw [ih, handleRequest_state]

theorem loadScript_failure (env : Env) (s : ProxyScout) (d : Downloader) (success : Bool)
    (hd : s.m_downloader = some d)
    (hfail : success = false ∨ (s.m_script = none ∧ env.scriptError d.script ≠ none)) :
    ∃ fx, loadScript env s success = some { value := false, state := s, effects := fx }
      ∧ replies fx = [] := by
  unfold loadScript
  cases success with
  | false =>
    simp only [hd]
    exact ⟨_, rfl, rfl⟩
  | true =>
    rcases hfail with h | ⟨hs, he⟩
    · exact Bool.noConfusion h
    · simp only [hs, hd, if_true]
      cases hx : env.scriptError d.script with
      | none => exact absurd hx he
      | some e => exact ⟨_, rfl, rfl⟩

theorem loadScript_success (env : Env) (s : ProxyScout) (d : Downloader)
    (hd : s.m_downloader = some d)
    (hok : s.m_script ≠ none ∨ env.scriptError d.script = none) :
    loadScript env s true
      = some { value := true, state := { s with m_script := some (scriptFor s d) },
               effects := [] } := by
  unfold loadScript scriptFor
  cases hs : s.m_script with
  | some script =>
    simp only [if_true]
    have e : s = { s with m_script := some script } := by
      rw [← hs]
    rw [← e]
  | none =>
    rcases hok with h | h
    · exact absurd hs h
    · simp only [if_true, hd, h]

theorem downloadResult_failure (env : Env) (now : Int) (s : ProxyScout) (d : Downloader)
    (success : Bool) (hd : s.m_downloader = some d)
    (hfail : success = false ∨ (s.m_script = none ∧ env.scriptError d.script ≠ none)) :
    ∃ out, downloadResult env now s success = some out
      ∧ out.state = { s with m_requestQueue := [], m_suspendTime := now }
      ∧ replies out.effects
          = s.m_requestQueue.map (fun it => (it.transaction, QVariant.string "DIRECT".toList)) := by
  obtain ⟨fx, hl, hfx⟩ := loadScript_failure env s d success hd hfail
  unfold downloadResult
  rw [hl]
  refine ⟨_, rfl, rfl, ?_⟩
  simp only
  rw [replies_append, hfx, List.nil_append, replies_sendDirect]

theorem downloadResult_success (env : Env) (now : Int) (s : ProxyScout) (d : Downloader)
    (hd : s.m_downloader = some d)
    (hok : s.m_script ≠ none ∨ env.scriptError d.script = none) :
    ∃ out, downloadResult env now s true = some out
      ∧ out.state.m_script = some (scriptFor s d)
      ∧ out.state.m_requestQueue = []
      ∧ out.state.m_suspendTime = s.m_suspendTime
      ∧ replies out.effects
          = s.m_requestQueue.map
              (replyFor env now (scriptFor s d) { s with m_script := some (scriptFor s d) }) := by
  unfold downloadResult
  rw [loadScript_success env s d hd hok]
  simp only [if_true]
  refine ⟨_, rfl, ?_, rfl, ?_, ?_⟩
  · simp only
    rw [sendResults_state]
  · simp only
    rw [sendResults_state]
  · simp only
    rw [List.nil_append]
    exact replies_sendResults env now _ _ _ _ (fun _ => rfl)

/-! ## Calls while a fetch is under way -/

theorem startDownload_fresh (env : Env) (s : ProxyScout) (hd : s.m_downloader = none)
    (hmode : env.proxyType = KProxyType.WPADProxy ∨ env.proxyType = KProxyType.PACProxy) :
    (startDownload env s).value = true
      ∧ fetchStarts (startDownload env s).effects = 1
      ∧ replies (startDownload env s).effects = []
      ∧ (∃ d, (startDownload env s).state.m_downloader = some d)
      ∧ (startDownload env s).state.m_script = s.m_script
      ∧ (startDownload env s).state.m_requestQueue = s.m_requestQueue
      ∧ (startDownload env s).state.m_suspendTime = s.m_suspendTime := by
  unfold startDownload
  rcases hmode with h | h
  · rw [h]
    simp [hd, fetchStarts, replies]
  · rw [h]
    simp only [hd]
    by_cases hl : env.isLocalFile env.proxyConfigScript = true
    · rw [if_pos hl]
      exact ⟨rfl, rfl, rfl, ⟨_, rfl⟩, rfl, rfl, rfl⟩
    · rw [if_neg hl]
      exact ⟨rfl, rfl, rfl, ⟨_, rfl⟩, rfl, rfl, rfl⟩

theorem suspendGate_unset (now : Int) (s : ProxyScout) (h : s.m_suspendTime = 0) :
    suspendGate now s = some s := by
  unfold suspendGate
  rw [if_neg (by simpa using h)]

/-- From a state without script and without downloader the call starts the
download and is queued. -/
theorem resolve_idle (env : Env) (s : ProxyScout) (c : Call)
    (hs : s.m_script = none) (hd : s.m_downloader = none) (ht : s.m_suspendTime = 0)
    (hmode : env.proxyType = KProxyType.WPADProxy ∨ env.proxyType = KProxyType.PACProxy) :
    resolve env s c
      = ({ (startDownload env s).state with
            m_requestQueue := (startDownload env s).state.m_requestQueue ++ [c.queued] },
          (startDownload env s).effects ++ [Effect.setDelayedReply c.msg]) := by
  have hv := (startDownload_fresh env s hd hmode).1
  have hself : isScriptUrl env s c.url = false := by
    unfold isScriptUrl
    rw [hd]
  have hst : downloaderOrStart env s = startDownload env s := by
    unfold downloaderOrStart
    rw [hd]
  unfold resolve proxiesForUrl proxyForUrl Call.queued
  simp only [suspendGate_unset _ s ht, hself, hs, hst, hv, if_true]
  cases c.all <;> rfl

/-- While a download is under way a call for another URL than the script's
own is queued and nothing else happens. -/
theorem resolve_fetching (env : Env) (s : ProxyScout) (d : Downloader) (c : Call)
    (hs : s.m_script = none) (hd : s.m_downloader = some d) (ht : s.m_suspendTime = 0)
    (hself : env.urlMatches c.url d.scriptUrl = false) :
    resolve env s c
      = ({ s with m_requestQueue := s.m_requestQueue ++ [c.queued] },
          [Effect.setDelayedReply c.msg]) := by
  have hself2 : isScriptUrl env s c.url = false := by
    unfold isScriptUrl
    rw [hd]
    exact hself
  have hst : downloaderOrStart env s = { value := true, state := s, effects := [] } := by
    unfold downloaderOrStart
    rw [hd]
  unfold resolve proxiesForUrl proxyForUrl Call.queued
  simp only [suspendGate_unset _ s ht, hself2, hs, hst, if_true]
  cases c.all <;> rfl

theorem resolveAll_fetching (env : Env) (d : Downloader) (calls : List Call) (s : ProxyScout)
    (hs : s.m_script = none) (hd : s.m_downloader = some d) (ht : s.m_suspendTime = 0)
    (hself : ∀ c ∈ calls, env.urlMatches c.url d.scriptUrl = false) :
    resolveAll env s calls
      = ({ s with m_requestQueue := s.m_requestQueue ++ calls.map Call.queued },
          calls.map (fun c => Effect.setDelayedReply c.msg)) := by
  induction calls generalizing s with
  | nil => simp [resolveAll]
  | cons c rest ih =>
    unfold resolveAll
    rw [resolve_fetching env s d c hs hd ht (hself c (by simp))]
    simp only
    rw [ih { s with m_requestQueue := s.m_requestQueue ++ [c.queued] } hs hd ht
      (fun x hx => hself x (List.mem_cons_of_mem _ hx))]
    simp

theorem fetchStarts_append (a b : List Effect) :
    fetchStarts (a ++ b) = fetchStarts a + fetchStarts b := by
  unfold fetchStarts
  rw [List.countP_append]

theorem fetchStarts_setDelayedReply (calls : List Call) :
    fetchStarts (calls.map (fun c => Effect.setDelayedReply c.msg)) = 0 := by
  induction calls with
  | nil => rfl
  | cons c rest ih =>
    unfold fetchStarts at ih ⊢
    rw [List.map_cons, List.countP_cons_of_neg _ _ (by simp)]
    exact ih

theorem downloadResult_handles (env : Env) (now : Int) (s : ProxyScout) (d : Downloader)
    (success : Bool) (hd : s.m_downloader = some d) :
    ∃ out, downloadResult env now s success = some out
      ∧ (replies out.effects).map Prod.fst = s.m_requestQueue.map QueuedRequest.transaction := by
  by_cases hfail : success = false ∨ (s.m_script = none ∧ env.scriptError d.script ≠ none)
  · obtain ⟨out, h1, _, h3⟩ := downloadResult_failure env now s d success hd hfail
    refine ⟨out, h1, ?_⟩
    rw [h3, List.map_map]
    rfl
  · have hsucc : success = true := by
      cases success with
      | false => exact absurd (Or.inl rfl) hfail
      | true => rfl
    have hok : s.m_script ≠ none ∨ env.scriptError d.script = none := by
      by_cases hs : s.m_script = none
      · right
        by_contra he
        exact hfail (Or.inr ⟨hs, he⟩)
      · exact Or.inl hs
    obtain ⟨out, h1, _, _, _, h5⟩ := downloadResult_success env now s d hd hok
    rw [hsucc]
    refine ⟨out, h1, ?_⟩
    rw [h5, List.map_map]
    rfl

/-! ## Properties of the service -/

/-- C1 as stated fails where no segment is DIRECT, PROXY, SOCKS or SOCKS5:
the one segment of the result FOO 10.0.0.1:8080 is well formed and of another
mode, so it gives no element, and the empty result has no segment at all; in
both cases handleRequest returns DIRECT alone instead of the empty list of
one element per segment. -/
theorem parse_without_known_mode_counterexample :
    (Segment.mk [] (Directive.other "FOO 10.0.0.1:8080".toList) []).WellFormed sampleEnv
    ∧ resultText [Segment.mk [] (Directive.other "FOO 10.0.0.1:8080".toList) []]
        = "FOO 10.0.0.1:8080".toList
    ∧ [Segment.mk [] (Directive.other "FOO 10.0.0.1:8080".toList) []].filterMap
        (fun g => g.body.expected sampleEnv) = []
    ∧ (handleRequest sampleEnv 0 (Script.mk "FOO 10.0.0.1:8080".toList) idle
        "http://example.org/".toList).value = ["DIRECT".toList]
    ∧ (handleRequest sampleEnv 0 (Script.mk "FOO 10.0.0.1:8080".toList) idle
        "http://example.org/".toList).value
        ≠ [Segment.mk [] (Directive.other "FOO 10.0.0.1:8080".toList) []].filterMap
            (fun g => g.body.expected sampleEnv)
    ∧ (handleRequest sampleEnv 0 (Script.mk (resultText [])) idle
        "http://example.org/".toList).value = ["DIRECT".toList] := by
  refine ⟨⟨by decide, by decide, by decide, by decide, by decide, by decide, by decide⟩,
    by decide, by decide, by decide, by decide, by decide⟩

/-- C1, amended. With an empty blacklist, a script result made of well-formed
segments (DIRECT, or PROXY, SOCKS or SOCKS5 in any letter case with a bare
address that is a valid URL behind its scheme, or a segment of another mode)
is answered with one element per DIRECT, PROXY or SOCKS segment, in segment
order and with duplicates kept: the string form of the address behind
http:// for PROXY and behind socks:// for SOCKS and SOCKS5, and DIRECT for
DIRECT. Segments of another mode give no element; when no segment gives an
element the reply is DIRECT alone. -/
theorem handleRequest_parses_directives (env : Env) (now : Int) (script : Script)
    (s : ProxyScout) (url : QString) (segs : List Segment)
    (hbl : s.m_blackList = BlackList.empty)
    (hwf : ∀ g ∈ segs, g.WellFormed env)
    (heval : env.evaluate script url = Except.ok (resultText segs)) :
    (handleRequest env now script s url).value
      = orDirect (segs.filterMap (fun g => g.body.expected env)) := by
  rw [handleRequest_value_ok env now script s url _ heval, hbl,
    candidates_resultText env segs hwf]
  have e : ∀ l : List (ProxyType × QString), l.filter (keeps now BlackList.empty) = l := by
    intro l
    rw [List.filter_eq_self]
    intro c _
    exact keeps_empty now c
  rw [e, reading_snd]

/-- C1 amended, at the example of the specification, and at a result that
spells the modes in mixed letter case, repeats a directive and holds a
segment of another mode. -/
theorem handleRequest_parses_directives_witness :
    (handleRequest sampleEnv 0
        (Script.mk "PROXY 10.0.0.1:8080; SOCKS5 10.0.0.2:1080; DIRECT".toList) idle
        "http://example.org/".toList).value
      = ["http://10.0.0.1:8080".toList, "socks://10.0.0.2:1080".toList, "DIRECT".toList]
    ∧ (handleRequest sampleEnv 0
        (Script.mk
          "pRoXy 10.0.0.1:8080; socks5 10.0.0.2:1080 ;Socks 10.0.0.2:1080; FOO 1.2.3.4:5;DIRECT;proxy 10.0.0.1:8080".toList)
        idle "http://example.org/".toList).value
      = ["http://10.0.0.1:8080".toList, "socks://10.0.0.2:1080".toList,
         "socks://10.0.0.2:1080".toList, "DIRECT".toList, "http://10.0.0.1:8080".toList] :=
  ⟨handleRequest_parses_directives sampleEnv 0
    (Script.mk "PROXY 10.0.0.1:8080; SOCKS5 10.0.0.2:1080; DIRECT".toList) idle
    "http://example.org/".toList
    [Segment.mk [] (Directive.proxy "PROXY".toList "10.0.0.1:8080".toList) [],
     Segment.mk " ".toList (Directive.proxy "SOCKS5".toList "10.0.0.2:1080".toList) [],
     Segment.mk " ".toList Directive.direct []]
    rfl
    (by
      intro g hg
      simp only [List.mem_cons, List.mem_singleton, List.not_mem_nil, or_false] at hg
      rcases hg with rfl | rfl | rfl
      · exact ⟨by decide, by decide, by decide, by decide, by decide, by decide, by decide,
          by decide⟩
      · exact ⟨by decide, by decide, by decide, by decide, by decide, by decide, by decide,
          by decide⟩
      · exact ⟨by decide, by decide, trivial⟩)
    rfl,
   handleRequest_parses_directives sampleEnv 0
    (Script.mk
      "pRoXy 10.0.0.1:8080; socks5 10.0.0.2:1080 ;Socks 10.0.0.2:1080; FOO 1.2.3.4:5;DIRECT;proxy 10.0.0.1:8080".toList)
    idle "http://example.org/".toList
    [Segment.mk [] (Directive.proxy "pRoXy".toList "10.0.0.1:8080".toList) [],
     Segment.mk " ".toList (Directive.proxy "socks5".toList "10.0.0.2:1080".toList) " ".toList,
     Segment.mk [] (Directive.proxy "Socks".toList "10.0.0.2:1080".toList) [],
     Segment.mk " ".toList (Directive.other "FOO 1.2.3.4:5".toList) [],
     Segment.mk [] Directive.direct [],
     Segment.mk [] (Directive.proxy "proxy".toList "10.0.0.1:8080".toList) []]
    rfl
    (by
      intro g hg
      simp only [List.mem_cons, List.mem_singleton, List.not_mem_nil, or_false] at hg
      rcases hg with rfl | rfl | rfl | rfl | rfl | rfl
      · exact ⟨by decide, by decide, by decide, by decide, by decide, by decide, by decide,
          by decide⟩
      · exact ⟨by decide, by decide, by decide, by decide, by decide, by decide, by decide,
          by decide⟩
      · exact ⟨by decide, by decide, by decide, by decide, by decide, by decide, by decide,
          by decide⟩
      · exact ⟨by decide, by decide, by decide, by decide, by decide, by decide, by decide⟩
      · exact ⟨by decide, by decide, trivial⟩
      · exact ⟨by decide, by decide, by decide, by decide, by decide, by decide, by decide,
          by decide⟩)
    rfl⟩

/-- C2 as stated fails where a DIRECT segment carries the blacklisted address:
in PROXY 10.0.0.1:8080; DIRECT http://10.0.0.1:8080 the PROXY candidate has a
fresh entry and is dropped, but line 335 lets every DIRECT entry pass, so the
address is in the result all the same. -/
theorem blacklisted_address_by_direct_counterexample :
    (ProxyType.Proxy, "http://10.0.0.1:8080".toList)
        ∈ candidates sampleEnv "PROXY 10.0.0.1:8080; DIRECT http://10.0.0.1:8080".toList
    ∧ (blackListProxy 1000 idle "http://10.0.0.1:8080".toList).state.m_blackList
        "http://10.0.0.1:8080".toList = some 1000
    ∧ (1500 : Int) - 1000 ≤ 1800
    ∧ (handleRequest sampleEnv 1500
        (Script.mk "PROXY 10.0.0.1:8080; DIRECT http://10.0.0.1:8080".toList)
        (blackListProxy 1000 idle "http://10.0.0.1:8080".toList).state
        "http://example.org/".toList).value = ["http://10.0.0.1:8080".toList]
    ∧ "http://10.0.0.1:8080".toList ∈ (handleRequest sampleEnv 1500
        (Script.mk "PROXY 10.0.0.1:8080; DIRECT http://10.0.0.1:8080".toList)
        (blackListProxy 1000 idle "http://10.0.0.1:8080".toList).state
        "http://example.org/".toList).value := by
  refine ⟨?_, ?_, ?_, ?_, ?_⟩ <;> decide

/-- C2, amended. A PROXY or SOCKS candidate of the script result whose
normalised address has a blacklist entry made at failedAt: while
now - failedAt is at most 1800 (1800 itself included) the entry stays as it
is and the candidate gives no element, so the address is among the kept
elements exactly as often as DIRECT entries carry it, and it is in the reply
only where a DIRECT entry carries it or as the DIRECT fallback; once
now - failedAt exceeds 1800 the address is in the reply and the entry is
gone. -/
theorem handleRequest_blacklist_ttl (env : Env) (now : Int) (script : Script)
    (s : ProxyScout) (url r : QString) (ty : ProxyType) (a : QString) (failedAt : Int)
    (heval : env.evaluate script url = Except.ok r)
    (hc : (ty, a) ∈ candidates env r)
    (hty : ty = ProxyType.Proxy ∨ ty = ProxyType.Socks)
    (hbl : s.m_blackList a = some failedAt) :
    (now - failedAt ≤ 1800 →
        (handleRequest env now script s url).state.m_blackList a = some failedAt
        ∧ ((split ';' (trimmed r)).foldl (handleEntry env now) ([], s.m_blackList)).1.count a
            = (candidates env r).countP
                (fun c => decide (c.1 = ProxyType.Direct) && decide (c.2 = a))
        ∧ (a ∈ (handleRequest env now script s url).value →
            a = "DIRECT".toList ∨ (ProxyType.Direct, a) ∈ candidates env r))
    ∧ (now - failedAt > 1800 →
        a ∈ (handleRequest env now script s url).value
        ∧ (handleRequest env now script s url).state.m_blackList a = none) := by
  have hnd : ty ≠ ProxyType.Direct := by
    rcases hty with e | e <;> rw [e] <;> decide
  constructor
  · intro hfresh
    have hx : expiredAt now s.m_blackList a = false := by
      have : ¬ now - failedAt > 1800 := by omega
      simp [expiredAt, hbl, this]
    have hf : freshAt now s.m_blackList a = true := by
      simp [freshAt, hbl, hfresh]
    refine ⟨?_, ?_, ?_⟩
    · rw [handleRequest_blackList_ok env now script s url r heval a]
      simp [evicted, hx, hbl]
    · rw [handleRequest_loop, loop_fst, List.nil_append, List.count_eq_countP,
        List.countP_map, List.countP_filter]
      apply List.countP_congr
      intro c _
      by_cases hca : c.2 = a
      · simp [keeps, hca, hf]
      · simp [hca]
    · intro hmem
      rw [handleRequest_value_ok env now script s url r heval] at hmem
      rcases mem_orDirect _ _ hmem with e | hk
      · exact Or.inl e
      · right
        obtain ⟨c, hcmem, hca⟩ := List.mem_map.mp hk
        obtain ⟨hcc, hkeep⟩ := List.mem_filter.mp hcmem
        have hdir : c.1 = ProxyType.Direct := by
          unfold keeps at hkeep
          rw [hca, hf] at hkeep
          simpa using hkeep
        have : c = (ProxyType.Direct, a) := by
          rw [← hdir, ← hca]
        rw [← this]
        exact hcc
  · intro hexp
    have hx : expiredAt now s.m_blackList a = true := by
      simp [expiredAt, hbl, hexp]
    have hf : freshAt now s.m_blackList a = false := by
      have : ¬ now - failedAt ≤ 1800 := by omega
      simp [freshAt, hbl, this]
    constructor
    · rw [handleRequest_value_ok env now script s url r heval]
      have hk : a ∈ ((candidates env r).filter (keeps now s.m_blackList)).map Prod.snd := by
        apply List.mem_map.mpr
        refine ⟨(ty, a), List.mem_filter.mpr ⟨hc, ?_⟩, rfl⟩
        simp [keeps, hf]
      rw [orDirect_of_mem a _ hk]
      exact hk
    · rw [handleRequest_blackList_ok env now script s url r heval a]
      have hev : evicted now s.m_blackList (candidates env r) a = true := by
        unfold evicted
        rw [hx, Bool.and_true, List.any_eq_true]
        exact ⟨(ty, a), hc, by simp [hnd]⟩
      rw [if_pos hev]

/-- C2 amended, at an entry that is exactly 1800 seconds old (the entry
stays, the address is not in the reply) and at one that is 1801 seconds old
(the address is in the reply, the entry is gone). -/
theorem handleRequest_blacklist_ttl_witness :
    ((handleRequest sampleEnv 2800 (Script.mk "PROXY 10.0.0.1:8080".toList)
          (blackListProxy 1000 idle "http://10.0.0.1:8080".toList).state
          "http://example.org/".toList).state.m_blackList "http://10.0.0.1:8080".toList
        = some 1000
      ∧ "http://10.0.0.1:8080".toList ∉ (handleRequest sampleEnv 2800
          (Script.mk "PROXY 10.0.0.1:8080".toList)
          (blackListProxy 1000 idle "http://10.0.0.1:8080".toList).state
          "http://example.org/".toList).value)
    ∧ ("http://10.0.0.1:8080".toList ∈ (handleRequest sampleEnv 2801
          (Script.mk "PROXY 10.0.0.1:8080".toList)
          (blackListProxy 1000 idle "http://10.0.0.1:8080".toList).state
          "http://example.org/".toList).value
      ∧ (handleRequest sampleEnv 2801 (Script.mk "PROXY 10.0.0.1:8080".toList)
          (blackListProxy 1000 idle "http://10.0.0.1:8080".toList).state
          "http://example.org/".toList).state.m_blackList "http://10.0.0.1:8080".toList
        = none) :=
  ⟨⟨((handleRequest_blacklist_ttl sampleEnv 2800 (Script.mk "PROXY 10.0.0.1:8080".toList)
      (blackListProxy 1000 idle "http://10.0.0.1:8080".toList).state
      "http://example.org/".toList "PROXY 10.0.0.1:8080".toList ProxyType.Proxy
      "http://10.0.0.1:8080".toList 1000 rfl (by decide) (Or.inl rfl) (by decide)).1
      (by decide)).1,
    fun hmem =>
      (((handleRequest_blacklist_ttl sampleEnv 2800 (Script.mk "PROXY 10.0.0.1:8080".toList)
        (blackListProxy 1000 idle "http://10.0.0.1:8080".toList).state
        "http://example.org/".toList "PROXY 10.0.0.1:8080".toList ProxyType.Proxy
        "http://10.0.0.1:8080".toList 1000 rfl (by decide) (Or.inl rfl) (by decide)).1
        (by decide)).2.2 hmem).elim (fun h => absurd h (by decide))
        (fun h => absurd h (by decide))⟩,
   (handleRequest_blacklist_ttl sampleEnv 2801 (Script.mk "PROXY 10.0.0.1:8080".toList)
      (blackListProxy 1000 idle "http://10.0.0.1:8080".toList).state
      "http://example.org/".toList "PROXY 10.0.0.1:8080".toList ProxyType.Proxy
      "http://10.0.0.1:8080".toList 1000 rfl (by decide) (Or.inl rfl) (by decide)).2
      (by decide)⟩

/-- C4. While the suspend timestamp is set and less than 300 seconds old,
proxiesForUrl answers DIRECT alone and proxyForUrl answers DIRECT for every
URL, with no effect at all (no fetcher is created or started, nothing is
evaluated or sent) and with the state exactly as before. -/
theorem suspend_gating (env : Env) (now : Int) (s : ProxyScout) (url : QString)
    (msg : QDBusMessage) (hset : s.m_suspendTime ≠ 0) (hwin : now - s.m_suspendTime < 300) :
    proxiesForUrl env now s url msg
        = { value := ["DIRECT".toList], state := s, effects := [] }
    ∧ proxyForUrl env now s url msg
        = { value := "DIRECT".toList, state := s, effects := [] } := by
  have hg : suspendGate now s = none := by
    unfold suspendGate
    rw [if_pos hset, if_pos hwin]
  unfold proxiesForUrl proxyForUrl
  rw [hg]
  exact ⟨rfl, rfl⟩

/-- C4, at a service suspended at 1000 with a request queued and a proxy
blacklisted, asked at 1299. -/
theorem suspend_gating_witness :
    proxiesForUrl sampleEnv 1299
        { fetching with m_suspendTime := 1000 } "http://example.org/".toList 5
        = { value := ["DIRECT".toList], state := { fetching with m_suspendTime := 1000 },
            effects := [] }
    ∧ proxyForUrl sampleEnv 1299
        { fetching with m_suspendTime := 1000 } "http://example.org/".toList 5
        = { value := "DIRECT".toList, state := { fetching with m_suspendTime := 1000 },
            effects := [] } :=
  suspend_gating sampleEnv 1299 { fetching with m_suspendTime := 1000 }
    "http://example.org/".toList 5 (by decide) (by decide)

/-- C5 fails on the code. The fetch of the sample service fails at 1000 and
the service is suspended; the call at 1300, when the 300 seconds are over,
clears the suspend timestamp and is queued with a delayed reply, but since
m_downloader is still set startDownload is not called: the call has no other
effect and starts no fetch. -/
theorem resolve_after_window_starts_no_fetch :
    (downloadResult sampleEnv 1000 fetching false).map
        (fun failed => failed.state.m_suspendTime) = some 1000
    ∧ (downloadResult sampleEnv 1000 fetching false).map
        (fun failed =>
          (proxiesForUrl sampleEnv 1300 failed.state "http://example.org/".toList 2).effects)
        = some [Effect.setDelayedReply 2]
    ∧ (downloadResult sampleEnv 1000 fetching false).map
        (fun failed => fetchStarts
          (proxiesForUrl sampleEnv 1300 failed.state "http://example.org/".toList 2).effects)
        = some 0
    ∧ (downloadResult sampleEnv 1000 fetching false).map
        (fun failed =>
          (proxiesForUrl sampleEnv 1300 failed.state
            "http://example.org/".toList 2).state.m_requestQueue)
        = some [QueuedRequest.mk 2 "http://example.org/".toList true]
    ∧ (downloadResult sampleEnv 1000 fetching false).map
        (fun failed =>
          (proxiesForUrl sampleEnv 1300 failed.state
            "http://example.org/".toList 2).state.m_suspendTime)
        = some 0 := by
  refine ⟨?_, ?_, ?_, ?_, ?_⟩ <;> decide

/-- C6 as stated fails from an Idle state whose queue is not empty. reset,
called through disconnectNetwork while the sample service is fetching, drops
the fetcher and leaves the queued request on handle 1 in the queue; the
service is Idle again, and after one call on handle 7 the following
downloadResult sends two replies, on the handles 1 and 7, not one. -/
theorem coalescing_after_reset_counterexample :
    (disconnectNetwork fetching true).state.m_script = none
    ∧ (disconnectNetwork fetching true).state.m_downloader = none
    ∧ (disconnectNetwork fetching true).state.m_suspendTime = 0
    ∧ (disconnectNetwork fetching true).state.m_requestQueue
        = [QueuedRequest.mk 1 "http://example.org/".toList true]
    ∧ fetchStarts (resolveAll sampleEnv (disconnectNetwork fetching true).state
        [Call.mk true "http://example.net/".toList 7 950]).2 = 1
    ∧ (downloadResult sampleEnv 960
        (resolveAll sampleEnv (disconnectNetwork fetching true).state
          [Call.mk true "http://example.net/".toList 7 950]).1 false).map
        (fun out => (replies out.effects).map Prod.fst) = some [1, 7]
    ∧ (downloadResult sampleEnv 960
        (resolveAll sampleEnv (disconnectNetwork fetching true).state
          [Call.mk true "http://example.net/".toList 7 950]).1 false).map
        (fun out => (replies out.effects).map Prod.fst) ≠ some [7] := by
  refine ⟨?_, ?_, ?_, ?_, ?_, ?_, ?_⟩ <;> decide

/-- C6, amended. From a service without script, without fetcher and not
suspended, in the mode Discovery or ExplicitScript, one call or more of
proxiesForUrl or proxyForUrl, none after the first for the script's own URL:
the effects are those of the one startDownload of the first call and one
delayed reply per call, so exactly one fetch is started; the calls are
appended to the queue in arrival order; and whatever the fetcher then
reports, the following downloadResult sends exactly one reply per queued
request: first on the handles of the requests the queue held before (reset
leaves them there), then one per call, the i-th on the handle of the i-th
call. From an empty queue these are exactly the replies to the calls. -/
theorem request_coalescing (env : Env) (s : ProxyScout) (c : Call) (rest : List Call)
    (fetcher : Downloader) (now : Int) (success : Bool)
    (hmode : env.proxyType = KProxyType.WPADProxy ∨ env.proxyType = KProxyType.PACProxy)
    (hs : s.m_script = none) (hd : s.m_downloader = none) (ht : s.m_suspendTime = 0)
    (hself : ∀ d, (startDownload env s).state.m_downloader = some d →
      ∀ x ∈ rest, env.urlMatches x.url d.scriptUrl = false) :
    (resolveAll env s (c :: rest)).2
        = (startDownload env s).effects
          ++ (c :: rest).map (fun x => Effect.setDelayedReply x.msg)
    ∧ fetchStarts (resolveAll env s (c :: rest)).2 = 1
    ∧ (resolveAll env s (c :: rest)).1.m_requestQueue
        = s.m_requestQueue ++ (c :: rest).map Call.queued
    ∧ (∃ out, downloadResult env now
          { (resolveAll env s (c :: rest)).1 with m_downloader := some fetcher } success
          = some out
        ∧ (replies out.effects).map Prod.fst
            = s.m_requestQueue.map QueuedRequest.transaction
              ++ (c :: rest).map (fun x => x.msg))
    ∧ (s.m_requestQueue = [] →
        ∃ out, downloadResult env now
          { (resolveAll env s (c :: rest)).1 with m_downloader := some fetcher } success
          = some out
        ∧ (replies out.effects).map Prod.fst = (c :: rest).map (fun x => x.msg)) := by
  obtain ⟨_, hfs, _, ⟨d, hd1⟩, hs1, hq1, ht1⟩ := startDownload_fresh env s hd hmode
  have hrun : resolveAll env s (c :: rest)
      = ({ (startDownload env s).state with
            m_requestQueue := s.m_requestQueue ++ (c :: rest).map Call.queued },
          (startDownload env s).effects
            ++ (c :: rest).map (fun x => Effect.setDelayedReply x.msg)) := by
    unfold resolveAll
    rw [resolve_idle env s c hs hd ht hmode]
    simp only
    rw [resolveAll_fetching env d rest
      { (startDownload env s).state with
        m_requestQueue := (startDownload env s).state.m_requestQueue ++ [c.queued] }
      (hs1.trans hs) hd1 (ht1.trans ht) (hself d hd1)]
    simp [hq1]
  have hreplies : ∃ out, downloadResult env now
        { (resolveAll env s (c :: rest)).1 with m_downloader := some fetcher } success
        = some out
      ∧ (replies out.effects).map Prod.fst
          = s.m_requestQueue.map QueuedRequest.transaction
            ++ (c :: rest).map (fun x => x.msg) := by
    rw [hrun]
    obtain ⟨out, h1, h2⟩ := downloadResult_handles env now
      { ({ (startDownload env s).state with
            m_requestQueue := s.m_requestQueue ++ (c :: rest).map Call.queued } : ProxyScout) with
        m_downloader := some fetcher } fetcher success rfl
    refine ⟨out, h1, ?_⟩
    rw [h2]
    simp only [List.map_append, List.map_map]
    rfl
  refine ⟨?_, ?_, ?_, hreplies, ?_⟩
  · rw [hrun]
  · rw [hrun]
    simp only
    rw [fetchStarts_append, hfs, fetchStarts_setDelayedReply]
  · rw [hrun]
  · intro hq
    obtain ⟨out, h1, h2⟩ := hreplies
    refine ⟨out, h1, ?_⟩
    rw [h2, hq]
    rfl

/-- C6 amended, at three calls to the new sample service, the second one a
proxyForUrl call, when the fetch then fails. -/
theorem request_coalescing_witness :
    (resolveAll sampleEnv idle
        [Call.mk true "http://example.org/".toList 1 10,
         Call.mk false "http://example.net/".toList 2 11,
         Call.mk true "http://example.org/".toList 3 12]).2
        = (startDownload sampleEnv idle).effects
          ++ [Effect.setDelayedReply 1, Effect.setDelayedReply 2, Effect.setDelayedReply 3]
    ∧ fetchStarts (resolveAll sampleEnv idle
        [Call.mk true "http://example.org/".toList 1 10,
         Call.mk false "http://example.net/".toList 2 11,
         Call.mk true "http://example.org/".toList 3 12]).2 = 1
    ∧ (resolveAll sampleEnv idle
        [Call.mk true "http://example.org/".toList 1 10,
         Call.mk false "http://example.net/".toList 2 11,
         Call.mk true "http://example.org/".toList 3 12]).1.m_requestQueue
        = [QueuedRequest.mk 1 "http://example.org/".toList true,
           QueuedRequest.mk 2 "http://example.net/".toList false,
           QueuedRequest.mk 3 "http://example.org/".toList true]
    ∧ ∃ out, downloadResult sampleEnv 20
          { (resolveAll sampleEnv idle
              [Call.mk true "http://example.org/".toList 1 10,
               Call.mk false "http://example.net/".toList 2 11,
               Call.mk true "http://example.org/".toList 3 12]).1 with
            m_downloader := some sampleDownloader } false
          = some out
        ∧ (replies out.effects).map Prod.fst = [1, 2, 3] := by
  have h := request_coalescing sampleEnv idle (Call.mk true "http://example.org/".toList 1 10)
    [Call.mk false "http://example.net/".toList 2 11,
     Call.mk true "http://example.org/".toList 3 12]
    sampleDownloader 20 false (Or.inr rfl) rfl rfl rfl
    (by
      intro d hd x hx
      have e : d = sampleDownloader := (Option.some.inj hd).symm
      rw [e]
      simp only [List.mem_cons, List.mem_singleton, List.not_mem_nil, or_false] at hx
      rcases hx with rfl | rfl <;> decide)
  exact ⟨h.1, h.2.1, h.2.2.1, h.2.2.2.2 rfl⟩

/-- C7 as stated fails in the state Idle: no fetcher exists yet, the test of
line 111 is skipped, and a call for the configured script URL starts the
download and is queued with a delayed reply instead of being answered; the
URL is the fetch URL of the download the call itself started. -/
theorem self_exclusion_idle_counterexample :
    (proxiesForUrl sampleEnv 0 idle sampleEnv.proxyConfigScript 1).value ≠ ["DIRECT".toList]
    ∧ (proxiesForUrl sampleEnv 0 idle sampleEnv.proxyConfigScript 1).state.m_requestQueue
        = [QueuedRequest.mk 1 sampleEnv.proxyConfigScript true]
    ∧ (proxiesForUrl sampleEnv 0 idle sampleEnv.proxyConfigScript 1).effects
        = [Effect.createDownloader, Effect.download sampleEnv.proxyConfigScript,
           Effect.setDelayedReply 1]
    ∧ (proxiesForUrl sampleEnv 0 idle sampleEnv.proxyConfigScript 1).state.m_downloader.map
        (fun d => sampleEnv.urlMatches sampleEnv.proxyConfigScript d.scriptUrl) = some true := by
  refine ⟨?_, ?_, ?_, ?_⟩ <;> decide

/-- C7, amended. In every state that has a fetcher (Fetching, Ready or
Suspended) and for every URL that matches the fetch URL of that fetcher's
script, proxiesForUrl answers DIRECT alone and proxyForUrl answers DIRECT at
once: the call has no effect (nothing is evaluated, no reply is delayed) and
leaves the state as it was, but for an elapsed suspend timestamp, which it
clears. -/
theorem self_exclusion (env : Env) (now : Int) (s : ProxyScout) (d : Downloader)
    (url : QString) (msg : QDBusMessage)
    (hd : s.m_downloader = some d) (hm : env.urlMatches url d.scriptUrl = true) :
    ((proxiesForUrl env now s url msg).value = ["DIRECT".toList]
      ∧ (proxiesForUrl env now s url msg).effects = []
      ∧ ((proxiesForUrl env now s url msg).state = s
        ∨ (proxiesForUrl env now s url msg).state = { s with m_suspendTime := 0 }))
    ∧ ((proxyForUrl env now s url msg).value = "DIRECT".toList
      ∧ (proxyForUrl env now s url msg).effects = []
      ∧ ((proxyForUrl env now s url msg).state = s
        ∨ (proxyForUrl env now s url msg).state = { s with m_suspendTime := 0 })) := by
  have hself : ∀ s1 : ProxyScout, suspendGate now s = some s1 → isScriptUrl env s1 url = true := by
    intro s1 hs1
    rw [suspendGate_some now s s1 hs1]
    unfold isScriptUrl
    simp only [hd]
    exact hm
  unfold proxiesForUrl proxyForUrl
  cases hg : suspendGate now s with
  | none => exact ⟨⟨rfl, rfl, Or.inl rfl⟩, ⟨rfl, rfl, Or.inl rfl⟩⟩
  | some s1 =>
    have h1 := hself s1 hg
    have h2 := suspendGate_some now s s1 hg
    dsimp only
    rw [if_pos h1, if_pos h1]
    exact ⟨⟨rfl, rfl, Or.inr h2⟩, ⟨rfl, rfl, Or.inr h2⟩⟩

/-- C7 amended, at the sample service with a script loaded, asked for the
script URL with a trailing slash. -/
theorem self_exclusion_witness :
    ((proxiesForUrl sampleEnv 50 (readyWith "PROXY 10.0.0.1:8080".toList)
          "http://wpad.example/proxy.pac/".toList 4).value = ["DIRECT".toList]
      ∧ (proxiesForUrl sampleEnv 50 (readyWith "PROXY 10.0.0.1:8080".toList)
          "http://wpad.example/proxy.pac/".toList 4).effects = []
      ∧ ((proxiesForUrl sampleEnv 50 (readyWith "PROXY 10.0.0.1:8080".toList)
          "http://wpad.example/proxy.pac/".toList 4).state
          = readyWith "PROXY 10.0.0.1:8080".toList
        ∨ (proxiesForUrl sampleEnv 50 (readyWith "PROXY 10.0.0.1:8080".toList)
          "http://wpad.example/proxy.pac/".toList 4).state
          = { readyWith "PROXY 10.0.0.1:8080".toList with m_suspendTime := 0 }))
    ∧ ((proxyForUrl sampleEnv 50 (readyWith "PROXY 10.0.0.1:8080".toList)
          "http://wpad.example/proxy.pac/".toList 4).value = "DIRECT".toList
      ∧ (proxyForUrl sampleEnv 50 (readyWith "PROXY 10.0.0.1:8080".toList)
          "http://wpad.example/proxy.pac/".toList 4).effects = []
      ∧ ((proxyForUrl sampleEnv 50 (readyWith "PROXY 10.0.0.1:8080".toList)
          "http://wpad.example/proxy.pac/".toList 4).state
          = readyWith "PROXY 10.0.0.1:8080".toList
        ∨ (proxyForUrl sampleEnv 50 (readyWith "PROXY 10.0.0.1:8080".toList)
          "http://wpad.example/proxy.pac/".toList 4).state
          = { readyWith "PROXY 10.0.0.1:8080".toList with m_suspendTime := 0 })) :=
  self_exclusion sampleEnv 50 (readyWith "PROXY 10.0.0.1:8080".toList) sampleDownloader
    "http://wpad.example/proxy.pac/".toList 4 rfl (by decide)

/-- C8. After reset, whatever the state was, no script is loaded, there is no
fetcher and no file watcher, the blacklist is empty and the suspend timestamp
is unset. -/
theorem reset_clears (s : ProxyScout) :
    (reset s).state.m_script = none
    ∧ (reset s).state.m_downloader = none
    ∧ (reset s).state.m_watcher = none
    ∧ (reset s).state.m_blackList = BlackList.empty
    ∧ (∀ k, (reset s).state.m_blackList.contains k = false)
    ∧ (reset s).state.m_suspendTime = 0 :=
  ⟨rfl, rfl, rfl, rfl, fun _ => rfl, rfl⟩

/-- C9 as stated fails twice. The failure loop creates every reply from the
string DIRECT, not from the list holding it, for requests with and without
sendAll; and a failed download leaves a script that was loaded before in
place. -/
theorem failure_drain_counterexample :
    (downloadResult sampleEnv 1000 fetchingTwo false).map (fun out => replies out.effects)
        = some [(1, QVariant.string "DIRECT".toList), (2, QVariant.string "DIRECT".toList)]
    ∧ (downloadResult sampleEnv 1000 fetchingTwo false).map (fun out => replies out.effects)
        ≠ some [(1, QVariant.stringList ["DIRECT".toList]),
                (2, QVariant.stringList ["DIRECT".toList])]
    ∧ (downloadResult sampleEnv 1000 (readyWith "DIRECT".toList) false).map
        (fun out => out.state.m_script) = some (some (Script.mk "DIRECT".toList)) := by
  refine ⟨?_, ?_, ?_⟩ <;> decide

/-- C9, amended. When a fetch attempt of an existing fetcher completes with
failure (downloadResult(false), or downloadResult(true) with no script loaded
and a script text that fails to construct) at the time now, exactly one reply
is sent per queued request, in arrival order and on the handle of the
request, and the reply to a request without sendAll is the string DIRECT;
afterwards the queue is empty, m_script is as it was before (so no script is
loaded when none was before), and the suspend timestamp equals now. -/
theorem failure_drain (env : Env) (now : Int) (s : ProxyScout) (d : Downloader)
    (success : Bool) (hd : s.m_downloader = some d)
    (hfail : success = false ∨ (s.m_script = none ∧ env.scriptError d.script ≠ none)) :
    ∃ out, downloadResult env now s success = some out
      ∧ List.Forall₂
          (fun it reply => reply.1 = it.transaction
            ∧ (it.sendAll = false → reply.2 = QVariant.string "DIRECT".toList))
          s.m_requestQueue (replies out.effects)
      ∧ out.state.m_requestQueue = []
      ∧ out.state.m_script = s.m_script
      ∧ out.state.m_suspendTime = now := by
  obtain ⟨out, h1, h2, h3⟩ := downloadResult_failure env now s d success hd hfail
  refine ⟨out, h1, ?_, ?_, ?_, ?_⟩
  · rw [h3]
    generalize s.m_requestQueue = queue
    induction queue with
    | nil => exact List.Forall₂.nil
    | cons it rest ih => exact List.Forall₂.cons ⟨rfl, fun _ => rfl⟩ ih
  · rw [h2]
  · rw [h2]
  · rw [h2]

/-- C9 amended, at the sample service with two requests queued whose fetch
fails at 1000. -/
theorem failure_drain_witness :
    ∃ out, downloadResult sampleEnv 1000 fetchingTwo false = some out
      ∧ List.Forall₂
          (fun it reply => reply.1 = it.transaction
            ∧ (it.sendAll = false → reply.2 = QVariant.string "DIRECT".toList))
          fetchingTwo.m_requestQueue (replies out.effects)
      ∧ out.state.m_requestQueue = []
      ∧ out.state.m_script = fetchingTwo.m_script
      ∧ out.state.m_suspendTime = 1000 :=
  failure_drain sampleEnv 1000 fetchingTwo sampleDownloader false rfl (Or.inl rfl)

/-- C10. When a fetch attempt of an existing fetcher completes successfully
and a script is there (loaded before, or constructed from the fetched text),
exactly one reply is sent per queued request, in arrival order and on the
handle of the request: for a request with sendAll the whole list handleRequest
gives for its URL, for a request without sendAll the first element of that
list, the list being the one handleRequest gives on the state as the loop
starts; afterwards the queue is empty and the suspend timestamp is
unchanged. -/
theorem success_drain (env : Env) (now : Int) (s : ProxyScout) (d : Downloader)
    (hd : s.m_downloader = some d)
    (hok : s.m_script ≠ none ∨ env.scriptError d.script = none) :
    ∃ out, downloadResult env now s true = some out
      ∧ replies out.effects
          = s.m_requestQueue.map (fun it =>
              (it.transaction,
                if it.sendAll then
                  QVariant.stringList (handleRequest env now (scriptFor s d)
                    { s with m_script := some (scriptFor s d) } it.url).value
                else
                  QVariant.string (first (handleRequest env now (scriptFor s d)
                    { s with m_script := some (scriptFor s d) } it.url).value)))
      ∧ out.state.m_requestQueue = []
      ∧ out.state.m_suspendTime = s.m_suspendTime := by
  obtain ⟨out, h1, _, h3, h4, h5⟩ := downloadResult_success env now s d hd hok
  exact ⟨out, h1, h5, h3, h4⟩

/-- C10, at the sample service with two requests queued, the first with
sendAll, when the fetched script answers with a proxy and DIRECT. -/
theorem success_drain_witness :
    ∃ out, downloadResult sampleEnv 1000 (fetched "PROXY 10.0.0.1:8080; DIRECT".toList) true
        = some out
      ∧ replies out.effects
          = [(1, QVariant.stringList ["http://10.0.0.1:8080".toList, "DIRECT".toList]),
             (2, QVariant.string "http://10.0.0.1:8080".toList)]
      ∧ out.state.m_requestQueue = []
      ∧ out.state.m_suspendTime = 0 :=
  success_drain sampleEnv 1000 (fetched "PROXY 10.0.0.1:8080; DIRECT".toList)
    { sampleDownloader with script := "PROXY 10.0.0.1:8080; DIRECT".toList } rfl (Or.inr rfl)

/-! ## Reloading, evaluation errors and the two entry points -/

/-- C11 fails on the code. The sample service has loaded the text DIRECT from
its local script file; the file changes, proxyScriptFileChanged starts the
download again, the downloader fetches PROXY 10.0.0.1:8080 and the download
completes successfully. Line 233 constructs a script only while none is
loaded, so m_script is still the script of the text DIRECT, and the next call
is answered from it. -/
theorem refetch_keeps_old_script :
    loadedFromFile.map (fun s => s.m_script) = some (some (Script.mk "DIRECT".toList))
    ∧ reloaded.map (fun s => s.m_downloader.map (fun d => d.script))
        = some (some "PROXY 10.0.0.1:8080".toList)
    ∧ sampleEnvFile.scriptError "PROXY 10.0.0.1:8080".toList = none
    ∧ reloaded.map (fun s => s.m_script) = some (some (Script.mk "DIRECT".toList))
    ∧ reloaded.map (fun s => s.m_script)
        ≠ some (some (Script.mk "PROXY 10.0.0.1:8080".toList))
    ∧ reloaded.map
        (fun s => (proxiesForUrl sampleEnvFile 40 s "http://example.org/".toList 2).value)
        = some ["DIRECT".toList] := by
  refine ⟨?_, ?_, ?_, ?_, ?_, ?_⟩ <;> decide

/-- C12 as stated fails: the script of the sample service throws at 1000; the
call is answered with DIRECT and a notification, and the suspend timestamp is
still unset afterwards, so the call one second later evaluates the script
again. -/
theorem evaluation_error_counterexample :
    (proxiesForUrl sampleEnv 1000 (readyWith "!boom".toList)
        "http://example.org/".toList 1).value = ["DIRECT".toList]
    ∧ (proxiesForUrl sampleEnv 1000 (readyWith "!boom".toList)
        "http://example.org/".toList 1).state.m_suspendTime = 0
    ∧ (proxiesForUrl sampleEnv 1000 (readyWith "!boom".toList)
        "http://example.org/".toList 1).state.m_suspendTime ≠ 1000
    ∧ (proxiesForUrl sampleEnv 1001
        (proxiesForUrl sampleEnv 1000 (readyWith "!boom".toList)
          "http://example.org/".toList 1).state
        "http://example.org/".toList 2).effects
        = [Effect.evaluate "http://example.org/".toList,
           Effect.notification "evaluation-error".toList "boom".toList] := by
  refine ⟨?_, ?_, ?_, ?_⟩ <;> decide

/-- C12, amended. With a script loaded, outside the suspend window and for a
URL that is not the script's own, a call for which the script's evaluate
raises an error is answered with DIRECT alone (DIRECT for proxyForUrl) and an
evaluation-error notification; the state stays as it was but for an elapsed
suspend timestamp, which is cleared: the suspend timestamp is unset
afterwards, and a call at any later time evaluates the script again. -/
theorem evaluation_error_is_local (env : Env) (now : Int) (s : ProxyScout) (script : Script)
    (url e : QString) (msg : QDBusMessage)
    (hscript : s.m_script = some script)
    (hgate : ¬ (s.m_suspendTime ≠ 0 ∧ now - s.m_suspendTime < 300))
    (hself : isScriptUrl env s url = false)
    (herr : env.evaluate script url = Except.error e) :
    proxiesForUrl env now s url msg
        = { value := ["DIRECT".toList], state := { s with m_suspendTime := 0 },
            effects := [Effect.evaluate url,
              Effect.notification "evaluation-error".toList e] }
    ∧ proxyForUrl env now s url msg
        = { value := "DIRECT".toList, state := { s with m_suspendTime := 0 },
            effects := [Effect.evaluate url,
              Effect.notification "evaluation-error".toList e] }
    ∧ (proxiesForUrl env now s url msg).state.m_suspendTime = 0
    ∧ ∀ (later : Int) (msg2 : QDBusMessage),
        (proxiesForUrl env later (proxiesForUrl env now s url msg).state url msg2).effects
          = [Effect.evaluate url, Effect.notification "evaluation-error".toList e] := by
  have hself0 : isScriptUrl env { s with m_suspendTime := 0 } url = false := hself
  have hhr : ∀ s1 : ProxyScout, handleRequest env now script s1 url
      = { value := ["DIRECT".toList], state := s1,
          effects := [Effect.evaluate url,
            Effect.notification "evaluation-error".toList e] } := by
    intro s1
    unfold handleRequest
    rw [herr]
  have hhr2 : ∀ (later : Int) (s1 : ProxyScout), handleRequest env later script s1 url
      = { value := ["DIRECT".toList], state := s1,
          effects := [Effect.evaluate url,
            Effect.notification "evaluation-error".toList e] } := by
    intro later s1
    unfold handleRequest
    rw [herr]
  have h1 : proxiesForUrl env now s url msg
      = { value := ["DIRECT".toList], state := { s with m_suspendTime := 0 },
          effects := [Effect.evaluate url,
            Effect.notification "evaluation-error".toList e] } := by
    unfold proxiesForUrl
    rw [suspendGate_of_elapsed now s hgate]
    dsimp only
    rw [if_neg (by rw [hself0]; exact Bool.false_ne_true), hscript]
    exact hhr _
  refine ⟨h1, ?_, ?_, ?_⟩
  · unfold proxyForUrl
    rw [suspendGate_of_elapsed now s hgate]
    dsimp only
    rw [if_neg (by rw [hself0]; exact Bool.false_ne_true), hscript]
    dsimp only
    rw [hhr]
    rfl
  · rw [h1]
  · intro later msg2
    rw [h1]
    unfold proxiesForUrl
    rw [suspendGate_unset later _ rfl]
    dsimp only
    rw [if_neg (by rw [hself0]; exact Bool.false_ne_true), hscript]
    dsimp only
    rw [hhr2]

/-- C12 amended, at the sample service whose script throws at 1000. -/
theorem evaluation_error_is_local_witness :
    proxiesForUrl sampleEnv 1000 (readyWith "!boom".toList) "http://example.org/".toList 1
        = { value := ["DIRECT".toList],
            state := { readyWith "!boom".toList with m_suspendTime := 0 },
            effects := [Effect.evaluate "http://example.org/".toList,
              Effect.notification "evaluation-error".toList "boom".toList] }
    ∧ proxyForUrl sampleEnv 1000 (readyWith "!boom".toList) "http://example.org/".toList 1
        = { value := "DIRECT".toList,
            state := { readyWith "!boom".toList with m_suspendTime := 0 },
            effects := [Effect.evaluate "http://example.org/".toList,
              Effect.notification "evaluation-error".toList "boom".toList] }
    ∧ (proxiesForUrl sampleEnv 1000 (readyWith "!boom".toList)
        "http://example.org/".toList 1).state.m_suspendTime = 0
    ∧ ∀ (later : Int) (msg2 : QDBusMessage),
        (proxiesForUrl sampleEnv later
          (proxiesForUrl sampleEnv 1000 (readyWith "!boom".toList)
            "http://example.org/".toList 1).state
          "http://example.org/".toList msg2).effects
          = [Effect.evaluate "http://example.org/".toList,
             Effect.notification "evaluation-error".toList "boom".toList] :=
  evaluation_error_is_local sampleEnv 1000 (readyWith "!boom".toList) (Script.mk "!boom".toList)
    "http://example.org/".toList "boom".toList 1 rfl (by decide) (by decide) rfl

theorem not_delayed_handleRequest (env : Env) (now : Int) (script : Script)
    (s : ProxyScout) (url : QString) (msg : QDBusMessage) :
    Effect.setDelayedReply msg ∉ (handleRequest env now script s url).effects := by
  unfold handleRequest
  cases env.evaluate script url with
  | error e => simp
  | ok r =>
    dsimp only
    split <;> simp

theorem not_delayed_startDownload (env : Env) (s : ProxyScout) (msg : QDBusMessage) :
    Effect.setDelayedReply msg ∉ (startDownload env s).effects := by
  unfold startDownload
  cases env.proxyType with
  | WPADProxy =>
    dsimp only
    cases s.m_downloader with
    | none => simp
    | some d =>
      dsimp only
      by_cases hk : d.kind ≠ DownloaderKind.Discovery
      · rw [if_pos hk]
        simp
      · rw [if_neg hk]
        simp
  | PACProxy =>
    dsimp only
    split
    · cases s.m_downloader <;> simp [fileChanged]
    · cases s.m_downloader <;> simp
  | NoProxy => simp
  | ManualProxy => simp
  | EnvVarProxy => simp

theorem not_delayed_downloaderOrStart (env : Env) (s : ProxyScout) (msg : QDBusMessage) :
    Effect.setDelayedReply msg ∉ (downloaderOrStart env s).effects := by
  unfold downloaderOrStart
  cases s.m_downloader with
  | none => exact not_delayed_startDownload env s msg
  | some d => simp

/-- C13. From the same state, at the same time and for the same URL the two
entry points make the same outbound calls, so proxyForUrl delays its reply
exactly when proxiesForUrl does. When the reply is not delayed, proxyForUrl
returns the first element of the list proxiesForUrl returns and both leave
the same state; when it is delayed, both append one request for the URL on
the handle to the same queue of the same state, with sendAll set by
proxiesForUrl and not set by proxyForUrl. -/
theorem proxyForUrl_agrees (env : Env) (now : Int) (s : ProxyScout) (url : QString)
    (msg : QDBusMessage) :
    (proxyForUrl env now s url msg).effects = (proxiesForUrl env now s url msg).effects
    ∧ ((Effect.setDelayedReply msg ∉ (proxiesForUrl env now s url msg).effects
          ∧ (proxyForUrl env now s url msg).value
              = first (proxiesForUrl env now s url msg).value
          ∧ (proxyForUrl env now s url msg).state = (proxiesForUrl env now s url msg).state)
        ∨ (Effect.setDelayedReply msg ∈ (proxiesForUrl env now s url msg).effects
          ∧ ∃ st : ProxyScout,
              (proxiesForUrl env now s url msg).state
                = { st with m_requestQueue :=
                      st.m_requestQueue ++ [QueuedRequest.mk msg url true] }
              ∧ (proxyForUrl env now s url msg).state
                = { st with m_requestQueue :=
                      st.m_requestQueue ++ [QueuedRequest.mk msg url false] })) := by
  unfold proxiesForUrl proxyForUrl
  cases suspendGate now s with
  | none =>
    dsimp only
    exact ⟨rfl, Or.inl ⟨by simp, rfl, rfl⟩⟩
  | some s1 =>
    dsimp only
    by_cases hself : isScriptUrl env s1 url = true
    · rw [if_pos hself, if_pos hself]
      exact ⟨rfl, Or.inl ⟨by simp, rfl, rfl⟩⟩
    · rw [if_neg hself, if_neg hself]
      cases s1.m_script with
      | some script =>
        dsimp only
        exact ⟨rfl, Or.inl ⟨not_delayed_handleRequest env now script s1 url msg, rfl, rfl⟩⟩
      | none =>
        dsimp only
        by_cases hv : (downloaderOrStart env s1).value = true
        · rw [if_pos hv, if_pos hv]
          exact ⟨rfl, Or.inr ⟨by simp, (downloaderOrStart env s1).state, rfl, rfl⟩⟩
        · rw [if_neg hv, if_neg hv]
          exact ⟨rfl, Or.inl ⟨not_delayed_downloaderOrStart env s1 msg, rfl, rfl⟩⟩

/-! ## The reply is never empty, and the blacklist only loses expired entries -/

theorem handleRequest_value_loop (env : Env) (now : Int) (script : Script) (s : ProxyScout)
    (url r : QString) (h : env.evaluate script url = Except.ok r) :
    (handleRequest env now script s url).value
      = orDirect ((split ';' (trimmed r)).foldl (handleEntry env now) ([], s.m_blackList)).1 := by
  unfold handleRequest
  simp only [h]
  cases ((split ';' (trimmed r)).foldl (handleEntry env now) ([], s.m_blackList)).1 with
  | nil => rfl
  | cons x xs => simp [orDirect]

theorem orDirect_ne_nil (kept : QStringList) : orDirect kept ≠ [] := by
  unfold orDirect
  split
  · simp
  · assumption

theorem first_mem (l : QStringList) (h : l ≠ []) : first l ∈ l := by
  cases l with
  | nil => exact absurd rfl h
  | cons x xs => simp [first]

theorem handleRequest_value_ne_nil (env : Env) (now : Int) (script : Script) (s : ProxyScout)
    (url : QString) : (handleRequest env now script s url).value ≠ [] := by
  cases h : env.evaluate script url with
  | error e =>
    rw [handleRequest_value_error env now script s url e h]
    simp
  | ok r =>
    rw [handleRequest_value_loop env now script s url r h]
    exact orDirect_ne_nil _

/-- C14. handleRequest never returns an empty list, whatever the script
returns or throws: the first element it is asked for in proxyForUrl and
downloadResult is an element of the list; when evaluate throws the list is
DIRECT alone; and when the loop keeps no candidate (empty result, unknown
modes, invalid addresses, blacklisted candidates) the list is DIRECT alone,
else it is the list of the candidates the loop kept. -/
theorem handleRequest_never_empty (env : Env) (now : Int) (script : Script) (s : ProxyScout)
    (url : QString) :
    (handleRequest env now script s url).value ≠ []
    ∧ first (handleRequest env now script s url).value
        ∈ (handleRequest env now script s url).value
    ∧ (∀ e, env.evaluate script url = Except.error e →
        (handleRequest env now script s url).value = ["DIRECT".toList])
    ∧ (∀ r, env.evaluate script url = Except.ok r →
        (((split ';' (trimmed r)).foldl (handleEntry env now) ([], s.m_blackList)).1 = [] →
          (handleRequest env now script s url).value = ["DIRECT".toList])
        ∧ (((split ';' (trimmed r)).foldl (handleEntry env now) ([], s.m_blackList)).1 ≠ [] →
          (handleRequest env now script s url).value
            = ((split ';' (trimmed r)).foldl (handleEntry env now) ([], s.m_blackList)).1)) := by
  refine ⟨handleRequest_value_ne_nil env now script s url,
    first_mem _ (handleRequest_value_ne_nil env now script s url),
    fun e he => handleRequest_value_error env now script s url e he, ?_⟩
  intro r hr
  rw [handleRequest_value_loop env now script s url r hr]
  constructor
  · intro hnil
    rw [hnil]
    rfl
  · intro hne
    unfold orDirect
    rw [if_neg hne]

/-- C14, at the empty result, a result of unknown modes, a result with an
invalid address, a result whose only candidate is blacklisted, and a script
that throws. -/
theorem handleRequest_never_empty_witness :
    (handleRequest sampleEnv 0 (Script.mk []) idle "http://example.org/".toList).value
        = ["DIRECT".toList]
    ∧ (handleRequest sampleEnv 0 (Script.mk "FOO 10.0.0.1:8080; BAR".toList) idle
        "http://example.org/".toList).value = ["DIRECT".toList]
    ∧ (handleRequest sampleEnv 0 (Script.mk "PROXY 10.0.0.1 8080".toList) idle
        "http://example.org/".toList).value = ["DIRECT".toList]
    ∧ (handleRequest sampleEnv 1500 (Script.mk "PROXY 10.0.0.1:8080".toList)
        (blackListProxy 1000 idle "http://10.0.0.1:8080".toList).state
        "http://example.org/".toList).value = ["DIRECT".toList]
    ∧ (handleRequest sampleEnv 0 (Script.mk "!boom".toList) idle
        "http://example.org/".toList).value = ["DIRECT".toList] :=
  ⟨((handleRequest_never_empty sampleEnv 0 (Script.mk []) idle
      "http://example.org/".toList).2.2.2 [] rfl).1 (by decide),
   ((handleRequest_never_empty sampleEnv 0 (Script.mk "FOO 10.0.0.1:8080; BAR".toList) idle
      "http://example.org/".toList).2.2.2 "FOO 10.0.0.1:8080; BAR".toList rfl).1 (by decide),
   ((handleRequest_never_empty sampleEnv 0 (Script.mk "PROXY 10.0.0.1 8080".toList) idle
      "http://example.org/".toList).2.2.2 "PROXY 10.0.0.1 8080".toList rfl).1 (by decide),
   ((handleRequest_never_empty sampleEnv 1500 (Script.mk "PROXY 10.0.0.1:8080".toList)
      (blackListProxy 1000 idle "http://10.0.0.1:8080".toList).state
      "http://example.org/".toList).2.2.2 "PROXY 10.0.0.1:8080".toList rfl).1 (by decide),
   (handleRequest_never_empty sampleEnv 0 (Script.mk "!boom".toList) idle
      "http://example.org/".toList).2.2.1 "boom".toList rfl⟩

theorem candidate_type (env : Env) (proxy : QString) (c : ProxyType × QString)
    (h : candidate env proxy = some c) :
    c.1 = ProxyType.Proxy ∨ c.1 = ProxyType.Socks ∨ c.1 = ProxyType.Direct := by
  unfold candidate at h
  dsimp only at h
  by_cases hu : proxyTypeFor (modeAndAddress proxy).1 = ProxyType.Unknown
  · rw [if_pos hu] at h
    exact Option.noConfusion h
  · rw [if_neg hu] at h
    obtain ⟨a, _, ha⟩ := Option.map_eq_some'.mp h
    rw [← ha]
    dsimp only
    cases hty : proxyTypeFor (modeAndAddress proxy).1 with
    | Unknown => exact absurd hty hu
    | Proxy => exact Or.inl rfl
    | Socks => exact Or.inr (Or.inl rfl)
    | Direct => exact Or.inr (Or.inr rfl)

theorem mem_candidates_type (env : Env) (r : QString) (c : ProxyType × QString)
    (h : c ∈ candidates env r) :
    c.1 = ProxyType.Proxy ∨ c.1 = ProxyType.Socks ∨ c.1 = ProxyType.Direct := by
  unfold candidates at h
  obtain ⟨entry, _, he⟩ := List.mem_filterMap.mp h
  exact candidate_type env (trimmed entry) c he

/-- The keys the loop evicts are the addresses of the PROXY and SOCKS
candidates whose entry is more than 1800 seconds old. -/
theorem evicted_iff (env : Env) (now : Int) (bl : BlackList) (r k : QString) :
    evicted now bl (candidates env r) k = true
      ↔ ∃ ty failedAt, (ty = ProxyType.Proxy ∨ ty = ProxyType.Socks)
          ∧ (ty, k) ∈ candidates env r ∧ bl k = some failedAt ∧ now - failedAt > 1800 := by
  unfold evicted expiredAt
  constructor
  · intro h
    rw [Bool.and_eq_true, List.any_eq_true] at h
    obtain ⟨⟨c, hc, hck⟩, hx⟩ := h
    rw [Bool.and_eq_true, decide_eq_true_eq, decide_eq_true_eq] at hck
    cases hb : bl k with
    | none =>
      rw [hb] at hx
      exact Bool.noConfusion hx
    | some t =>
      rw [hb] at hx
      have hty : c.1 = ProxyType.Proxy ∨ c.1 = ProxyType.Socks := by
        rcases mem_candidates_type env r c hc with h1 | h1 | h1
        · exact Or.inl h1
        · exact Or.inr h1
        · exact absurd h1 hck.1
      refine ⟨c.1, t, hty, ?_, rfl, by simpa using hx⟩
      rw [← hck.2]
      exact hc
  · rintro ⟨ty, t, hty, hc, hb, ht⟩
    rw [Bool.and_eq_true, List.any_eq_true]
    refine ⟨⟨(ty, k), hc, ?_⟩, ?_⟩
    · have hnd : ty ≠ ProxyType.Direct := by
        rcases hty with e | e <;> rw [e] <;> decide
      simp [hnd]
    · rw [hb]
      simpa using ht

/-- C15. handleRequest changes nothing but the blacklist: the suspend
timestamp, the request queue, the script, the fetcher and the watcher are as
before. Every entry the blacklist holds afterwards it held before, with the
same timestamp; and for a script result the blacklist afterwards is the
blacklist of before without exactly the entries whose key is the normalised
address of a PROXY or SOCKS candidate of the result and whose age
now - failedAt exceeds 1800. When evaluate throws the state is as before. -/
theorem handleRequest_only_evicts (env : Env) (now : Int) (script : Script) (s : ProxyScout)
    (url : QString) :
    ((handleRequest env now script s url).state.m_suspendTime = s.m_suspendTime
      ∧ (handleRequest env now script s url).state.m_requestQueue = s.m_requestQueue
      ∧ (handleRequest env now script s url).state.m_script = s.m_script
      ∧ (handleRequest env now script s url).state.m_downloader = s.m_downloader
      ∧ (handleRequest env now script s url).state.m_watcher = s.m_watcher)
    ∧ (∀ k t, (handleRequest env now script s url).state.m_blackList k = some t →
        s.m_blackList k = some t)
    ∧ (∀ r, env.evaluate script url = Except.ok r → ∀ k,
        ((∃ ty failedAt, (ty = ProxyType.Proxy ∨ ty = ProxyType.Socks)
            ∧ (ty, k) ∈ candidates env r ∧ s.m_blackList k = some failedAt
            ∧ now - failedAt > 1800) →
          (handleRequest env now script s url).state.m_blackList k = none)
        ∧ ((¬ ∃ ty failedAt, (ty = ProxyType.Proxy ∨ ty = ProxyType.Socks)
            ∧ (ty, k) ∈ candidates env r ∧ s.m_blackList k = some failedAt
            ∧ now - failedAt > 1800) →
          (handleRequest env now script s url).state.m_blackList k = s.m_blackList k))
    ∧ (∀ e, env.evaluate script url = Except.error e →
        (handleRequest env now script s url).state = s) := by
  have hframe := handleRequest_state env now script s url
  have hok : ∀ r, env.evaluate script url = Except.ok r → ∀ k,
      ((∃ ty failedAt, (ty = ProxyType.Proxy ∨ ty = ProxyType.Socks)
          ∧ (ty, k) ∈ candidates env r ∧ s.m_blackList k = some failedAt
          ∧ now - failedAt > 1800) →
        (handleRequest env now script s url).state.m_blackList k = none)
      ∧ ((¬ ∃ ty failedAt, (ty = ProxyType.Proxy ∨ ty = ProxyType.Socks)
          ∧ (ty, k) ∈ candidates env r ∧ s.m_blackList k = some failedAt
          ∧ now - failedAt > 1800) →
        (handleRequest env now script s url).state.m_blackList k = s.m_blackList k) := by
    intro r hr k
    rw [handleRequest_blackList_ok env now script s url r hr k]
    constructor
    · intro h
      rw [if_pos ((evicted_iff env now s.m_blackList r k).mpr h)]
    · intro h
      rw [if_neg (fun hev => h ((evicted_iff env now s.m_blackList r k).mp hev))]
  have herr : ∀ e, env.evaluate script url = Except.error e →
      (handleRequest env now script s url).state = s := by
    intro e he
    unfold handleRequest
    rw [he]
  refine ⟨⟨?_, ?_, ?_, ?_, ?_⟩, ?_, hok, herr⟩
  · rw [hframe]
  · rw [hframe]
  · rw [hframe]
  · rw [hframe]
  · rw [hframe]
  · intro k t hk
    cases he : env.evaluate script url with
    | error e =>
      rw [herr e he] at hk
      exact hk
    | ok r =>
      by_cases hev : ∃ ty failedAt, (ty = ProxyType.Proxy ∨ ty = ProxyType.Socks)
          ∧ (ty, k) ∈ candidates env r ∧ s.m_blackList k = some failedAt
          ∧ now - failedAt > 1800
      · rw [(hok r he k).1 hev] at hk
        exact Option.noConfusion hk
      · rw [(hok r he k).2 hev] at hk
        exact hk

/-- C15, at a blacklist with an expired entry for the candidate of the result
and a fresh entry for another proxy, asked at 3000: the first entry is gone,
the second one is as before. -/
theorem handleRequest_only_evicts_witness :
    (handleRequest sampleEnv 3000 (Script.mk "PROXY 10.0.0.1:8080; DIRECT".toList)
        (blackListProxy 2000
          (blackListProxy 1000 idle "http://10.0.0.1:8080".toList).state
          "http://10.0.0.2:8080".toList).state
        "http://example.org/".toList).state.m_blackList "http://10.0.0.1:8080".toList = none
    ∧ (handleRequest sampleEnv 3000 (Script.mk "PROXY 10.0.0.1:8080; DIRECT".toList)
        (blackListProxy 2000
          (blackListProxy 1000 idle "http://10.0.0.1:8080".toList).state
          "http://10.0.0.2:8080".toList).state
        "http://example.org/".toList).state.m_blackList "http://10.0.0.2:8080".toList
        = some 2000 :=
  ⟨((handleRequest_only_evicts sampleEnv 3000 (Script.mk "PROXY 10.0.0.1:8080; DIRECT".toList)
      (blackListProxy 2000
        (blackListProxy 1000 idle "http://10.0.0.1:8080".toList).state
        "http://10.0.0.2:8080".toList).state
      "http://example.org/".toList).2.2.1 "PROXY 10.0.0.1:8080; DIRECT".toList rfl
      "http://10.0.0.1:8080".toList).1
      ⟨ProxyType.Proxy, 1000, Or.inl rfl, by decide, by decide, by decide⟩,
   (((handleRequest_only_evicts sampleEnv 3000 (Script.mk "PROXY 10.0.0.1:8080; DIRECT".toList)
      (blackListProxy 2000
        (blackListProxy 1000 idle "http://10.0.0.1:8080".toList).state
        "http://10.0.0.2:8080".toList).state
      "http://example.org/".toList).2.2.1 "PROXY 10.0.0.1:8080; DIRECT".toList rfl
      "http://10.0.0.2:8080".toList).2
      (by
        rintro ⟨ty, t, _, hc, _, _⟩
        revert hc
        have hcands : candidates sampleEnv "PROXY 10.0.0.1:8080; DIRECT".toList
            = [(ProxyType.Proxy, "http://10.0.0.1:8080".toList),
               (ProxyType.Direct, "DIRECT".toList)] := by decide
        rw [hcands]
        intro hc
        simp only [List.mem_cons, List.mem_singleton, List.not_mem_nil, or_false,
          Prod.mk.injEq] at hc
        rcases hc with ⟨_, h2⟩ | ⟨_, h2⟩
        · exact absurd h2 (by decide)
        · exact absurd h2 (by decide))).trans (by decide)⟩

end KPAC
